import Mathlib

/-!
Verification development for the trend-research-bot content-intelligence
pipeline (`app/content_intelligence`).  The Python services are shallowly
embedded: dynamically typed metadata dictionaries become an inductive value
universe `MetaVal` over association lists, Python floats become `ℚ`,
Python runtime errors (`AttributeError`, `TypeError`, transport failures)
become `Except String`, and the external hash functions (`hashlib.sha1`) are
passed as explicit function parameters, reflecting that they are pure
library functions outside this repository.
-/

/-- Value universe for Python metadata dictionaries (`Dict[str, Any]`):
numbers, strings, lists, nested dicts and `None`. -/
inductive MetaVal where
  | num (q : ℚ)
  | str (s : String)
  | vlist (vs : List MetaVal)
  | dict (entries : List (String × MetaVal))
  | none

/-- Lookup in a Python dict modelled as an association list (first match;
the dicts built by the embedded code never carry duplicate keys). -/
def lookupStr {α : Type} (l : List (String × α)) (k : String) : Option α :=
  match l with
  | [] => Option.none
  | (k', v) :: rest => if k' = k then some v else lookupStr rest k

/-- Python truthiness for the values of `MetaVal`. -/
def pyTruthy : MetaVal → Bool
  | .num q => q != 0
  | .str s => s ≠ ""
  | .vlist vs => !vs.isEmpty
  | .dict es => !es.isEmpty
  | .none => false

/-- Python `max(a, b)`: defined for two numbers or two strings, otherwise a
`TypeError` (unorderable types). -/
def pyMax : MetaVal → MetaVal → Except String MetaVal
  | .num a, .num b => .ok (.num (max a b))
  | .str a, .str b => .ok (.str (max a b))
  | _, _ => .error "TypeError: unorderable types in max"

/-- Python `v.get(k, default)` followed by use as a number: `AttributeError`
when `v` is not a dict, `TypeError` when the value found is not a number. -/
def pyDictGetNum (v : MetaVal) (k : String) (dflt : ℚ) : Except String ℚ :=
  match v with
  | .dict es =>
      match lookupStr es k with
      | Option.none => .ok dflt
      | some (.num q) => .ok q
      | some _ => .error "TypeError: unsupported operand type"
  | _ => .error "AttributeError: object has no attribute get"

/-- First-occurrence deduplication relative to an already-seen list; this is
the semantics of Python's `dict.fromkeys` and of the seen-set loops in the
source. -/
def dedupFirst {α : Type} [DecidableEq α] : List α → List α → List α
  | [], _ => []
  | x :: xs, seen =>
      if x ∈ seen then dedupFirst xs seen else x :: dedupFirst xs (x :: seen)

/-- Python `list(dict.fromkeys(l))`: deduplicate keeping the first
occurrence of each element. -/
def pyDedup {α : Type} [DecidableEq α] (l : List α) : List α :=
  dedupFirst l []

/-- Python `\s` on the ASCII range: space, tab, newline, carriage return,
vertical tab and form feed. -/
def pyIsSpace (c : Char) : Bool :=
  c = ' ' || c = '\t' || c = '\n' || c = '\r' || c = '\x0b' || c = '\x0c'

/-- Python `str.strip()` on ASCII text. -/
def pyStripChars (cs : List Char) : List Char :=
  ((cs.dropWhile pyIsSpace).reverse.dropWhile pyIsSpace).reverse

/-- Python `str.strip()` lifted to `String`. -/
def pyStrip (s : String) : String :=
  String.mk (pyStripChars s.toList)

/-- Python `str.lower()` on ASCII text, character by character. -/
def pyToLower (s : String) : String :=
  String.mk (s.toList.map Char.toLower)

namespace TextUtils

/-- Models `unicodedata.normalize("NFKD", value).encode("ascii", "ignore")`:
non-ASCII characters are dropped.  The NFKD decomposition step is the
identity on the ASCII subset, which is the fragment this development
evaluates on. -/
def asciiIgnore (s : String) : String :=
  String.mk (s.toList.filter (fun c => c.toNat < 128))

/-- Membership in Python's `\w` class for ASCII text: alphanumerics and
underscore. -/
def isWordChar (c : Char) : Bool :=
  c.isAlphanum || c = '_'

/-- Collapse of every run of characters matching `[\s\-]+` into a single
hyphen (the final `re.sub` of `slugify`); the flag records whether the
previous character belonged to such a run. -/
def collapseAux : List Char → Bool → List Char
  | [], _ => []
  | c :: cs, inRun =>
      if pyIsSpace c || c = '-' then
        if inRun then collapseAux cs true else '-' :: collapseAux cs true
      else c :: collapseAux cs false

/-- Collapse of `[\s\-]+` runs to single hyphens. -/
def collapseDashRuns (cs : List Char) : List Char :=
  collapseAux cs false

/-- Embedding of `app/content_intelligence/utils/text.py::slugify` with
`allow_unicode=False`: ASCII-fold, strip characters outside `[\w\s-]`,
strip surrounding whitespace, lower-case, collapse whitespace/hyphen runs
to single hyphens, and fall back to `"topic"` when empty. -/
def slugify (value : String) : String :=
  let v := asciiIgnore value
  let v := String.mk (v.toList.filter (fun c => isWordChar c || pyIsSpace c || c = '-'))
  let v := pyToLower (pyStrip v)
  let v := String.mk (collapseDashRuns v.toList)
  if v = "" then "topic" else v

/-- Splitting into maximal alphanumeric runs, i.e. Python's
`re.findall(r"[a-zA-Z0-9]+", ·)`.  The accumulator carries the current run
reversed. -/
def alnumRunsAux : List Char → List Char → List String
  | [], acc => if acc.isEmpty then [] else [String.mk acc.reverse]
  | c :: cs, acc =>
      if c.isAlphanum then alnumRunsAux cs (c :: acc)
      else if acc.isEmpty then alnumRunsAux cs []
      else String.mk acc.reverse :: alnumRunsAux cs []

/-- Embedding of `text.py::extract_keywords`: lower-case, tokenize into
alphanumeric runs, deduplicate preserving first-seen order, truncate to
`limit`. -/
def extract_keywords (text : String) (limit : ℕ) : List String :=
  (pyDedup (alnumRunsAux (pyToLower text).toList [])).take limit

/-- Embedding of `text.py::normalize_urls`: drop falsy entries, strip
whitespace, drop entries that become empty, deduplicate preserving order. -/
def normalize_urls (urls : List String) : List String :=
  urls.foldl
    (fun clean url =>
      if url = "" then clean
      else
        let u := pyStrip url
        if u ≠ "" ∧ u ∉ clean then clean ++ [u] else clean)
    []

end TextUtils

/-- Whether the first character list starts the second. -/
def startsWithChars : List Char → List Char → Bool
  | [], _ => true
  | _ :: _, [] => false
  | a :: as, b :: bs => a = b && startsWithChars as bs

/-- Python's substring test `needle in haystack` on character lists. -/
def containsChars (needle : List Char) : List Char → Bool
  | [] => needle.isEmpty
  | c :: rest => startsWithChars needle (c :: rest) || containsChars needle rest

/-- Lexicographic strict order on character lists by code point, the order
Python uses to compare strings. -/
def ltChars : List Char → List Char → Bool
  | [], [] => false
  | [], _ :: _ => true
  | _ :: _, [] => false
  | a :: as, b :: bs => if a = b then ltChars as bs else decide (a.toNat < b.toNat)

/-- Executable string comparison `a ≤ b` (shown below to agree with the
standard order on `String`). -/
def leStr (a b : String) : Bool :=
  !(ltChars b.toList a.toList)

/-- Insertion of one string into a sorted list. -/
def insertSorted (a : String) : List String → List String
  | [] => [a]
  | b :: bs => if leStr a b then a :: b :: bs else b :: insertSorted a bs

/-- Python `sorted` on a list of strings (insertion sort; on strings every
correct ascending sort yields the same list). -/
def sortStrings : List String → List String
  | [] => []
  | a :: rest => insertSorted a (sortStrings rest)

namespace CategoryRouter

/-- Number of configured keywords of one category that occur as substrings
of the (already lower-cased) blob, the score of
`utils/category.py::CategoryRouter.route`.  Keywords are lower-cased at
router construction (`_normalized`). -/
def category_score (blob : String) (keywords : List String) : ℕ :=
  (keywords.map pyToLower).countP (fun kw => containsChars kw.toList blob.toList)

/-- The running `(best_category, best_score)` pair of
`CategoryRouter.route`, starting from `(fallback, -1)` and improving only
on strictly greater scores. -/
def route_best (blob fallback : String) (cfg : List (String × List String)) :
    String × ℤ :=
  cfg.foldl
    (fun (best : String × ℤ) entry =>
      let score : ℤ := (category_score blob entry.2 : ℤ)
      if best.2 < score then (entry.1, score) else best)
    (fallback, -1)

/-- Embedding of `utils/category.py::CategoryRouter.route`.  The category
configuration is the insertion-ordered dict `category name ↦ keywords`;
`hf` stands for `int(hashlib.sha1(·.encode()).hexdigest(), 16)`, an
external pure function. -/
def route (hf : String → ℕ) (cfg : List (String × List String))
    (text : String) (fallback : String) : String :=
  if (route_best (pyToLower text) fallback cfg).2 ≤ 0 ∧ cfg ≠ [] then
    (sortStrings (cfg.map Prod.fst)).getD
      (hf (pyToLower text) % (sortStrings (cfg.map Prod.fst)).length)
      (route_best (pyToLower text) fallback cfg).1
  else (route_best (pyToLower text) fallback cfg).1

end CategoryRouter

/-- Raw topic payload produced by a connector
(`models/topic.py::RawTopic`). -/
structure RawTopic where
  title : String
  summary : String
  source_urls : List String
  category_hint : String
  metadata : List (String × MetaVal)

/-- Normalized candidate (`models/topic.py::TopicCandidate`), also the
shape of clustering output. -/
structure TopicCandidate where
  topic_id : String
  topic_title : String
  keywords : List String
  source_urls : List String
  category : String
  metadata : List (String × MetaVal)

/-- Computed sub-scores (`models/topic.py::TopicScores`). -/
structure TopicScores where
  trend_velocity : ℚ
  search_volume : ℚ
  news_frequency : ℚ
  youtube_activity : ℚ
  monetization_value : ℚ
deriving DecidableEq

/-- Python `round(x, 4)`: round to a multiple of `1/10000`, ties to even
(banker's rounding). -/
def pyRound4 (x : ℚ) : ℚ :=
  let y := x * 10000
  let f := ⌊y⌋
  let frac := y - f
  if frac < 1 / 2 then (f : ℚ) / 10000
  else if 1 / 2 < frac then ((f : ℚ) + 1) / 10000
  else (if f % 2 = 0 then (f : ℚ) else (f : ℚ) + 1) / 10000

/-- Embedding of `TopicScores.global_score`. -/
def TopicScores.global_score (s : TopicScores) : ℚ :=
  pyRound4 (s.trend_velocity * 0.35 + s.search_volume * 0.25
    + s.news_frequency * 0.15 + s.youtube_activity * 0.15
    + s.monetization_value * 0.10)

/-- Final published entity (`models/topic.py::Topic`).  The `created_at`
wall-clock timestamp is environmental and carries no specified content, so
it is not part of the embedding. -/
structure Topic where
  topic_id : String
  topic_title : String
  keywords : List String
  source_urls : List String
  category : String
  trend_score : ℚ
  freshness_score : ℚ
  monetization_score : ℚ
  global_score : ℚ
  diagnostics : List (String × MetaVal)

namespace SourceFetchService

/-- The content identifier of `services/source_fetch_service.py`
(`build_candidates` body): slug of the title, a hyphen, and the first ten
hex characters of the SHA-1 digest of the `title\nsummary` blob.  `digest`
stands for `hashlib.sha1(·.encode()).hexdigest()`. -/
def topic_id_of (digest : String → String) (r : RawTopic) : String :=
  TextUtils.slugify r.title ++ "-" ++ (digest (r.title ++ "\n" ++ r.summary)).take 10

/-- Candidate constructed for one raw topic in `build_candidates`. -/
def mk_candidate (digest : String → String) (hf : String → ℕ)
    (cfg : List (String × List String)) (keyword_limit : ℕ) (r : RawTopic) :
    TopicCandidate :=
  let text_blob := r.title ++ "\n" ++ r.summary
  { topic_id := topic_id_of digest r
    topic_title := r.title
    keywords := TextUtils.extract_keywords text_blob keyword_limit
    source_urls := TextUtils.normalize_urls r.source_urls
    category := CategoryRouter.route hf cfg text_blob r.category_hint
    metadata := [("summary", .str r.summary), ("raw_metadata", .dict r.metadata)] }

/-- Loop of `build_candidates` with its seen-identifier set. -/
def build_go (digest : String → String) (hf : String → ℕ)
    (cfg : List (String × List String)) (keyword_limit : ℕ) :
    List RawTopic → List String → List TopicCandidate
  | [], _ => []
  | r :: rs, seen =>
      let tid := topic_id_of digest r
      if tid ∈ seen then build_go digest hf cfg keyword_limit rs seen
      else mk_candidate digest hf cfg keyword_limit r ::
        build_go digest hf cfg keyword_limit rs (tid :: seen)

/-- Embedding of `SourceFetchService.build_candidates`. -/
def build_candidates (digest : String → String) (hf : String → ℕ)
    (cfg : List (String × List String)) (keyword_limit : ℕ)
    (raws : List RawTopic) : List TopicCandidate :=
  build_go digest hf cfg keyword_limit raws []

end SourceFetchService

namespace TrendDiscoveryService

/-- Embedding of `TrendDiscoveryService.discover`.  Each connector's
`fetch` outcome (as delivered by `asyncio.gather(..., return_exceptions=True)`,
in connector-declaration order) is either its raw-topic list or an
exception value. -/
def discover (results : List (Except String (List RawTopic))) : List RawTopic :=
  results.foldl
    (fun topics r =>
      match r with
      | .error _ => topics
      | .ok ts => topics ++ ts)
    []

end TrendDiscoveryService

namespace TopicClusterService

/-- Embedding of `topic_cluster_service.py::_cluster_key`: the first six
keywords, sorted, joined with hyphens. -/
def cluster_key (keywords : List String) : String :=
  String.intercalate "-" (sortStrings (keywords.take 6))

/-- Accumulated state of one cluster (the per-key dict of
`TopicClusterService.cluster`).  `source_urls` models the Python set by the
accumulation list; the output applies deduplication and sorting, which
yields exactly `sorted(set(...))`. -/
structure ClusterData where
  keywords : List String
  source_urls : List String
  titles : List String
  raw_metadata : List (List (String × MetaVal))
  summaries : List MetaVal
  source_counts : List (String × ℕ)
  latest_published : Option MetaVal
  category_hint : String
  topic_ids : List String
  category : String
  topic_id : String

/-- The defaultdict initializer of `cluster` (`category_hint` defaults to
the `"general"` used when reading it back, `topic_ids` to the `[]` default
of its `get`). -/
def emptyClusterData : ClusterData :=
  { keywords := []
    source_urls := []
    titles := []
    raw_metadata := []
    summaries := []
    source_counts := []
    latest_published := Option.none
    category_hint := "general"
    topic_ids := []
    category := "general"
    topic_id := "" }

/-- Increment of `source_counts[source_type] += 1` on the defaultdict. -/
def bump (counts : List (String × ℕ)) (k : String) : List (String × ℕ) :=
  match counts with
  | [] => [(k, 1)]
  | (k', n) :: rest => if k' = k then (k', n + 1) :: rest else (k', n) :: bump rest k

/-- Update of the running `latest_published` marker:
`max(latest or published, published)` guarded by truthiness of
`published`. -/
def updateLatest (latest : Option MetaVal) (published : MetaVal) :
    Except String MetaVal :=
  match latest with
  | Option.none => pyMax published published
  | some l => pyMax l published

/-- Unconditional accumulation of one member: keywords, source URLs,
title and summary (the first four statements of the loop body). -/
def apply_base (data : ClusterData) (c : TopicCandidate) : ClusterData :=
  { data with
    keywords := data.keywords ++ c.keywords
    source_urls := data.source_urls ++ c.source_urls
    titles := data.titles ++ [c.topic_title]
    summaries := data.summaries ++ [(lookupStr c.metadata "summary").getD (.str "")] }

/-- The `source_type` increment of the loop body.  Source types are
counted under their string value; a truthy non-string `source_type` (which
Python would accept as a dict key) is outside this embedding's value
universe for count keys and is reported as a model-boundary error. -/
def apply_source_type (data : ClusterData) (rm : List (String × MetaVal)) :
    Except String ClusterData :=
  match lookupStr rm "source_type" with
  | some v =>
      if pyTruthy v then
        match v with
        | .str s => .ok { data with source_counts := bump data.source_counts s }
        | _ => .error "model boundary: non-string source_type"
      else .ok data
  | Option.none => .ok data

/-- The `latest_published` update of the loop body. -/
def apply_published (data : ClusterData) (rm : List (String × MetaVal)) :
    Except String ClusterData :=
  match lookupStr rm "published" with
  | some p =>
      if pyTruthy p then do
        let m ← updateLatest data.latest_published p
        pure { data with latest_published := some m }
      else .ok data
  | Option.none => .ok data

/-- The `isinstance(raw_meta, dict)` block of the loop body. -/
def apply_raw_meta (data : ClusterData) (c : TopicCandidate) :
    Except String ClusterData :=
  match lookupStr c.metadata "raw_metadata" with
  | some (.dict rm) => do
      let data ← apply_source_type { data with raw_metadata := data.raw_metadata ++ [rm] } rm
      apply_published data rm
  | _ => .ok data

/-- The trailing unconditional assignments of the loop body. -/
def apply_final (data : ClusterData) (c : TopicCandidate) : ClusterData :=
  { data with
    category_hint := c.category
    topic_ids := data.topic_ids ++ [c.topic_id]
    category := c.category
    topic_id := c.topic_id }

/-- Effect of one candidate on its cluster's accumulated data (the loop
body of `cluster`), assembled from the stages above in source order. -/
def apply_member (data : ClusterData) (c : TopicCandidate) :
    Except String ClusterData := do
  let d ← apply_raw_meta (apply_base data c) c
  pure (apply_final d c)

/-- Replace the entry of `k` in place, or append a new entry; this is the
update of the insertion-ordered cluster dict. -/
def updateEntry (st : List (String × ClusterData)) (k : String)
    (d : ClusterData) : List (String × ClusterData) :=
  match st with
  | [] => [(k, d)]
  | (k', d') :: rest =>
      if k' = k then (k, d) :: rest else (k', d') :: updateEntry rest k d

/-- One iteration of the clustering loop. -/
def cluster_step (st : List (String × ClusterData)) (c : TopicCandidate) :
    Except String (List (String × ClusterData)) := do
  let key := cluster_key c.keywords
  let d ← apply_member ((lookupStr st key).getD emptyClusterData) c
  pure (updateEntry st key d)

/-- Serialization of the accumulated cluster metadata back into the merged
candidate's metadata dict. -/
def mkMergedMetadata (data : ClusterData) : List (String × MetaVal) :=
  [("raw_metadata", .vlist (data.raw_metadata.map .dict)),
   ("summaries", .vlist data.summaries),
   ("source_counts", .dict (data.source_counts.map (fun p => (p.1, MetaVal.num p.2)))),
   ("latest_published", data.latest_published.getD .none),
   ("category_hint", .str data.category_hint),
   ("topic_ids", .vlist (data.topic_ids.map .str))]

/-- Merged candidate emitted for one cluster (`idx` is `len(merged)` at
append time, i.e. the output position). -/
def mk_merged (idx : ℕ) (key : String) (data : ClusterData) : TopicCandidate :=
  { topic_id := key ++ "-" ++ toString idx
    topic_title := data.titles.headD ""
    keywords := (pyDedup data.keywords).take 12
    source_urls := sortStrings (pyDedup data.source_urls)
    category := data.category_hint
    metadata := mkMergedMetadata data }

/-- Embedding of `TopicClusterService.cluster` (`max_candidates` defaults
to 250 in the source). -/
def cluster (max_candidates : ℕ) (candidates : List TopicCandidate) :
    Except String (List TopicCandidate) := do
  let st ← (candidates.take max_candidates).foldlM cluster_step []
  pure (st.enum.map (fun p => mk_merged p.1 p.2.1 p.2.2))

/-- The `topic_ids` evidence list of a merged candidate, read back from its
metadata. -/
def topic_ids_of (m : TopicCandidate) : List String :=
  match lookupStr m.metadata "topic_ids" with
  | some (.vlist vs) =>
      vs.filterMap (fun v => match v with | .str s => some s | _ => Option.none)
  | _ => []

/-- The count recorded in a merged candidate's `source_counts` metadata for
one source type (0 when absent). -/
def source_count_of (m : TopicCandidate) (st : String) : ℚ :=
  match lookupStr m.metadata "source_counts" with
  | some (.dict es) =>
      match lookupStr es st with
      | some (.num q) => q
      | _ => 0
  | _ => 0

/-- Whether one candidate's raw metadata carries the given source type
(the truthy `source_type` guard of the clustering loop). -/
def carries_source (st : String) (c : TopicCandidate) : Bool :=
  match lookupStr c.metadata "raw_metadata" with
  | some (.dict rm) =>
      match lookupStr rm "source_type" with
      | some (.str s) => s ≠ "" && s = st
      | _ => false
  | _ => false

/-- Evolution of a single cluster's entry under a list of members: the view
of the clustering loop restricted to one cluster key (`Option.none` while
the defaultdict has not yet created the entry). -/
def entry_fold (e : Option ClusterData) :
    List TopicCandidate → Except String (Option ClusterData)
  | [] => .ok e
  | c :: cs => do
      let d ← apply_member (e.getD emptyClusterData) c
      entry_fold (some d) cs

/-- The per-merged-topic `topic_ids` evidence of a whole clustering run
(empty when clustering raises). -/
def clusterIds (max_candidates : ℕ) (candidates : List TopicCandidate) :
    List (List String) :=
  match cluster max_candidates candidates with
  | .ok ms => ms.map topic_ids_of
  | .error _ => []

end TopicClusterService

namespace QualityFilterService

/-- Embedding of `QualityFilterService.filter` (defaults: 3 keywords, 1
source URL). -/
def qfilter (min_keyword_count min_source_urls : ℕ)
    (candidates : List TopicCandidate) : List TopicCandidate :=
  candidates.filter
    (fun c =>
      decide (min_keyword_count ≤ c.keywords.length)
        && decide (min_source_urls ≤ c.source_urls.length))

end QualityFilterService

namespace ContentScoreService

/-- The `raw_metadata` value read by `_compute_scores`
(`candidate.metadata.get("raw_metadata", {})`). -/
def raw_meta_of (c : TopicCandidate) : MetaVal :=
  (lookupStr c.metadata "raw_metadata").getD (.dict [])

/-- The `source_counts` value read by `_compute_scores`. -/
def source_counts_of (c : TopicCandidate) : MetaVal :=
  (lookupStr c.metadata "source_counts").getD (.dict [])

/-- Embedding of `ContentScoreService._compute_scores` (`baseline` is the
configured `monetization_baseline`, default 0.4).  Dynamic-typing failures
(`.get` on a non-dict, arithmetic on a non-number) surface as errors, as
they do at Python runtime. -/
def compute_scores (baseline : ℚ) (candidate : TopicCandidate) :
    Except String TopicScores := do
  let metadata := raw_meta_of candidate
  let source_counts := source_counts_of candidate
  let youtube ← pyDictGetNum source_counts "youtube" 0
  let reddit ← pyDictGetNum source_counts "reddit" 0
  let trend_velocity := min 1 ((youtube + reddit) / 10)
  let search_volume := min 1 ((candidate.keywords.length : ℚ) / 12)
  let news_frequency := min 1 ((candidate.source_urls.length : ℚ) / 10)
  let youtube_activity := min 1 (youtube / 5)
  let cpm ← pyDictGetNum metadata "estimated_cpm" (1 / 2)
  let monetization_value := max baseline (min 1 cpm)
  pure
    { trend_velocity := trend_velocity
      search_volume := search_volume
      news_frequency := news_frequency
      youtube_activity := youtube_activity
      monetization_value := monetization_value }

/-- The `Topic` built by `ContentScoreService.score` for one candidate. -/
def mk_topic (candidate : TopicCandidate) (scores : TopicScores) : Topic :=
  { topic_id := candidate.topic_id
    topic_title := candidate.topic_title
    keywords := candidate.keywords
    source_urls := candidate.source_urls
    category := candidate.category
    trend_score := scores.trend_velocity
    freshness_score := scores.news_frequency
    monetization_score := scores.monetization_value
    global_score := scores.global_score
    diagnostics :=
      [("raw_metadata", .dict candidate.metadata),
       ("score_components",
        .dict [("trend_velocity", .num scores.trend_velocity),
               ("search_volume", .num scores.search_volume),
               ("news_frequency", .num scores.news_frequency),
               ("youtube_activity", .num scores.youtube_activity),
               ("monetization_value", .num scores.monetization_value)])] }

/-- Embedding of `ContentScoreService.score`: a raised exception in
`_compute_scores` aborts the whole call. -/
def score (baseline : ℚ) (candidates : List TopicCandidate) :
    Except String (List Topic) :=
  candidates.mapM (fun c => (compute_scores baseline c).map (mk_topic c))

end ContentScoreService

namespace QueuePublisherService

/-- Result of one `publish` call: the seen-id set afterwards, the batches
handed to the transport, and the returned count or raised transport
error. -/
structure PublishResult where
  seen : List String
  invocations : List (List Topic)
  outcome : Except String ℕ

/-- Addition of the fresh ids to the seen set (`set.add` per id). -/
def addSeen (seen : List String) (ids : List String) : List String :=
  ids.foldl (fun s i => if i ∈ s then s else s ++ [i]) seen

/-- Embedding of `QueuePublisherService.publish`.  `transport_ok` is the
outcome of the downstream `publisher.publish` call; when it raises, the
exception propagates before the seen-id marking loop runs. -/
def publish (seen : List String) (topics : List Topic) (transport_ok : Bool) :
    PublishResult :=
  let fresh := topics.filter (fun t => decide (t.topic_id ∉ seen))
  if fresh.isEmpty then { seen := seen, invocations := [], outcome := .ok 0 }
  else if transport_ok then
    { seen := addSeen seen (fresh.map Topic.topic_id)
      invocations := [fresh]
      outcome := .ok fresh.length }
  else { seen := seen, invocations := [fresh], outcome := .error "transport" }

/-- Two consecutive `publish` calls on one freshly constructed service
instance (`_seen_ids` starts empty); returns all transport batches in
order. -/
def publishTwice (ts1 ts2 : List Topic) (ok1 ok2 : Bool) : List (List Topic) :=
  let r1 := publish [] ts1 ok1
  let r2 := publish r1.seen ts2 ok2
  r1.invocations ++ r2.invocations

end QueuePublisherService

namespace SampleData

/-- Concrete published topic used to instantiate the publish-stage
properties. -/
def t0 : Topic :=
  { topic_id := "t-0", topic_title := "T", keywords := ["k"],
    source_urls := ["u"], category := "general", trend_score := 0,
    freshness_score := 0, monetization_score := 1 / 2, global_score := 0,
    diagnostics := [] }

/-- Concrete normalized candidate fed to clustering (three keywords, one
URL, dict-shaped raw metadata), the shape normalization produces. -/
def cW : TopicCandidate :=
  { topic_id := "w1", topic_title := "W", keywords := ["a", "b", "c"],
    source_urls := ["u"], category := "general",
    metadata := [("summary", .str "s"), ("raw_metadata", .dict [])] }

/-- The merged topic `cluster 250 [cW]` produces, written out. -/
def mW : TopicCandidate :=
  { topic_id := "a-b-c-0", topic_title := "W", keywords := ["a", "b", "c"],
    source_urls := ["u"], category := "general",
    metadata :=
      [("raw_metadata", .vlist [.dict []]),
       ("summaries", .vlist [.str "s"]),
       ("source_counts", .dict []),
       ("latest_published", .none),
       ("category_hint", .str "general"),
       ("topic_ids", .vlist [.str "w1"])] }

/-- Candidate whose raw metadata carries a negative `estimated_cpm`. -/
def exA : TopicCandidate :=
  { topic_id := "a", topic_title := "A", keywords := [], source_urls := [],
    category := "g",
    metadata := [("raw_metadata", .dict [("estimated_cpm", .num (-2))])] }

/-- Candidate whose metadata carries a negative `source_counts` value. -/
def exB : TopicCandidate :=
  { topic_id := "b", topic_title := "B", keywords := [], source_urls := [],
    category := "g",
    metadata := [("source_counts", .dict [("youtube", .num (-8))])] }

/-- Candidate with an empty keyword list sitting at position 0. -/
def eEmpty0 : TopicCandidate :=
  { topic_id := "e0", topic_title := "E0", keywords := [], source_urls := [],
    category := "g", metadata := [] }

/-- Unrelated candidate with an empty keyword list sitting at position 250,
just beyond the clustering cap. -/
def eEmpty1 : TopicCandidate :=
  { topic_id := "e1", topic_title := "E1", keywords := [],
    source_urls := ["unrelated"], category := "g", metadata := [] }

/-- Filler candidate with one keyword. -/
def fillerC : TopicCandidate :=
  { topic_id := "f", topic_title := "F", keywords := ["a"], source_urls := [],
    category := "g", metadata := [] }

/-- Input of 251 candidates: two empty-keyword candidates separated by 249
fillers, so the second empty-keyword candidate falls beyond the
250-candidate cap. -/
def c10_input : List TopicCandidate :=
  eEmpty0 :: (List.replicate 249 fillerC ++ [eEmpty1])

/-- Metadata-free candidate used to witness the score-bounds property. -/
def wCand : TopicCandidate :=
  { topic_id := "w", topic_title := "W", keywords := [], source_urls := [],
    category := "g", metadata := [] }

/-- The scores `_compute_scores` assigns to `wCand` at baseline 0.4. -/
def wScores : TopicScores :=
  { trend_velocity := min 1 ((0 + 0) / 10)
    search_volume := min 1 ((wCand.keywords.length : ℚ) / 12)
    news_frequency := min 1 ((wCand.source_urls.length : ℚ) / 10)
    youtube_activity := min 1 ((0 : ℚ) / 5)
    monetization_value := max (2 / 5) (min 1 (1 / 2)) }

/-- The single merged topic produced by clustering
`[eEmpty0, eEmpty1]` (both empty-keyword, hence one cluster under the
empty key). -/
def mE01 : TopicCandidate :=
  { topic_id := "-0", topic_title := "E0", keywords := [],
    source_urls := ["unrelated"], category := "g",
    metadata :=
      [("raw_metadata", .vlist []),
       ("summaries", .vlist [.str "", .str ""]),
       ("source_counts", .dict []),
       ("latest_published", .none),
       ("category_hint", .str "g"),
       ("topic_ids", .vlist [.str "e0", .str "e1"])] }

/-- Stand-in for the external SHA-1 hexdigest used to instantiate
hash-parameterized statements. -/
def digest0 (s : String) : String :=
  s ++ "0123456789abcdef"

/-- Two raw topics sharing title and summary text but arriving with
different URLs and hints (as if from different connectors). -/
def rX : RawTopic :=
  { title := "Same Title", summary := "same summary",
    source_urls := ["http://x"], category_hint := "news", metadata := [] }

/-- Second raw topic with the identical text content. -/
def rY : RawTopic :=
  { title := "Same Title", summary := "same summary",
    source_urls := ["http://y"], category_hint := "tech",
    metadata := [("source_type", .str "reddit")] }

end SampleData

/-! ## General auxiliary lemmas -/

/-- Inversion of a successful `Except` bind. -/
theorem except_bind_ok {α β : Type} {x : Except String α} {f : α → Except String β}
    {b : β} (h : (do let a ← x; f a) = .ok b) : ∃ a, x = .ok a ∧ f a = .ok b := by
  cases x with
  | error e => simp [Bind.bind, Except.bind] at h
  | ok a => exact ⟨a, rfl, by simpa [Bind.bind, Except.bind] using h⟩

/-- Lookup through a value-mapped association list. -/
theorem lookupStr_map {α β : Type} (f : α → β) (l : List (String × α)) (k : String) :
    lookupStr (l.map (fun p => (p.1, f p.2))) k = (lookupStr l k).map f := by
  induction l with
  | nil => rfl
  | cons p rest ih =>
      by_cases h : p.1 = k <;> simp [lookupStr, h, ih]

/-- A successful lookup witnesses membership. -/
theorem lookupStr_mem {α : Type} {l : List (String × α)} {k : String} {v : α}
    (h : lookupStr l k = some v) : (k, v) ∈ l := by
  induction l with
  | nil => simp [lookupStr] at h
  | cons p rest ih =>
      by_cases hk : p.1 = k
      · simp [lookupStr, hk] at h
        subst hk
        simp [h.symm]
      · simp [lookupStr, hk] at h
        exact List.mem_cons_of_mem _ (ih h)

/-- On key-nodup association lists, membership determines the lookup. -/
theorem lookupStr_of_mem_nodup {α : Type} {l : List (String × α)} {k : String} {v : α}
    (hnd : (l.map Prod.fst).Nodup) (h : (k, v) ∈ l) : lookupStr l k = some v := by
  induction l with
  | nil => simp at h
  | cons p rest ih =>
      simp only [List.map_cons, List.nodup_cons] at hnd
      rcases List.mem_cons.mp h with h1 | h1
      · subst h1
        simp [lookupStr]
      · have hne : p.1 ≠ k := by
          intro hk
          exact hnd.1 (hk ▸ (List.mem_map.mpr ⟨(k, v), h1, rfl⟩))
        simp [lookupStr, hne, ih hnd.2 h1]

/-- First-seen deduplication yields no duplicates and avoids the seen
set. -/
theorem dedupFirst_nodup_avoid {α : Type} [DecidableEq α] :
    ∀ (l seen : List α), (dedupFirst l seen).Nodup ∧ ∀ x ∈ dedupFirst l seen, x ∉ seen := by
  intro l
  induction l with
  | nil => intro seen; simp [dedupFirst]
  | cons x xs ih =>
      intro seen
      by_cases hx : x ∈ seen
      · simpa [dedupFirst, hx] using ih seen
      · have h2 := ih (x :: seen)
        refine ⟨?_, ?_⟩
        · simp only [dedupFirst, hx, if_false, List.nodup_cons]
          exact ⟨fun hmem => (h2.2 x hmem) (List.mem_cons_self x seen), h2.1⟩
        · intro y hy
          simp only [dedupFirst, hx, if_false, List.mem_cons] at hy
          rcases hy with rfl | hy
          · exact hx
          · exact fun hs => (h2.2 y hy) (List.mem_cons_of_mem _ hs)

/-- Python-style first-occurrence deduplication is duplicate-free. -/
theorem pyDedup_nodup {α : Type} [DecidableEq α] (l : List α) : (pyDedup l).Nodup :=
  (dedupFirst_nodup_avoid l []).1

/-- The executable character order agrees with the lexicographic `Lex`
order on character lists. -/
theorem ltChars_iff : ∀ as bs : List Char, ltChars as bs = true ↔ List.Lex (· < ·) as bs := by
  intro as
  induction as with
  | nil =>
      intro bs
      cases bs with
      | nil =>
          simp only [ltChars, Bool.false_eq_true, false_iff]
          intro h
          cases h
      | cons b bs => simp [ltChars, List.Lex.nil]
  | cons a as ih =>
      intro bs
      cases bs with
      | nil =>
          simp only [ltChars, Bool.false_eq_true, false_iff]
          intro h
          cases h
      | cons b bs =>
          by_cases hab : a = b
          · subst hab
            simp only [ltChars, eq_self_iff_true, if_true]
            rw [ih bs]
            constructor
            · exact fun h => List.Lex.cons h
            · intro h
              cases h with
              | cons h => exact h
              | rel h => exact absurd h (lt_irrefl a)
          · simp only [ltChars, if_neg hab, decide_eq_true_eq]
            constructor
            · intro h
              exact List.Lex.rel h
            · intro h
              cases h with
              | cons h => exact absurd rfl hab
              | rel h => exact h

/-- The executable string comparison agrees with the standard order. -/
theorem leStr_iff (a b : String) : leStr a b = true ↔ a ≤ b := by
  unfold leStr
  rw [Bool.not_eq_true', ← Bool.not_eq_true, ltChars_iff]
  have hlt : List.Lex (· < ·) b.toList a.toList ↔ b < a := by
    rw [String.lt_iff_toList_lt]
    exact Iff.rfl
  rw [hlt, not_lt]

/-- Membership through sorted insertion. -/
theorem mem_insertSorted (a x : String) :
    ∀ l : List String, x ∈ insertSorted a l ↔ x = a ∨ x ∈ l := by
  intro l
  induction l with
  | nil => simp [insertSorted]
  | cons b bs ih =>
      simp only [insertSorted]
      by_cases h : leStr a b = true
      · rw [if_pos h]
        simp only [List.mem_cons]
      · rw [if_neg h]
        simp only [List.mem_cons, ih]
        tauto

/-- Sorted insertion is a permutation of consing. -/
theorem insertSorted_perm (a : String) :
    ∀ l : List String, (insertSorted a l).Perm (a :: l) := by
  intro l
  induction l with
  | nil => simp [insertSorted]
  | cons b bs ih =>
      simp only [insertSorted]
      by_cases h : leStr a b = true
      · rw [if_pos h]
      · rw [if_neg h]
        exact (ih.cons b).trans (List.Perm.swap a b bs)

/-- Sorted insertion preserves sortedness. -/
theorem sorted_insertSorted (a : String) :
    ∀ l : List String, List.Sorted (· ≤ ·) l → List.Sorted (· ≤ ·) (insertSorted a l) := by
  intro l
  induction l with
  | nil => simp [insertSorted]
  | cons b bs ih =>
      intro hs
      rw [List.sorted_cons] at hs
      simp only [insertSorted]
      by_cases h : leStr a b = true
      · rw [if_pos h]
        rw [List.sorted_cons]
        refine ⟨?_, List.sorted_cons.mpr hs⟩
        intro x hx
        rcases List.mem_cons.mp hx with rfl | hx
        · exact (leStr_iff a x).mp h
        · exact le_trans ((leStr_iff a b).mp h) (hs.1 x hx)
      · rw [if_neg h]
        rw [List.sorted_cons]
        constructor
        · intro x hx
          rcases (mem_insertSorted a x bs).mp hx with rfl | hx
          · exact le_of_not_le (fun hab => h ((leStr_iff x b).mpr hab))
          · exact hs.1 x hx
        · exact ih hs.2

/-- The embedded sort produces a sorted list. -/
theorem sortStrings_sorted : ∀ l : List String, List.Sorted (· ≤ ·) (sortStrings l) := by
  intro l
  induction l with
  | nil => simp [sortStrings]
  | cons a rest ih => exact sorted_insertSorted a (sortStrings rest) ih

/-- The embedded sort permutes its input. -/
theorem sortStrings_perm : ∀ l : List String, (sortStrings l).Perm l := by
  intro l
  induction l with
  | nil => simp [sortStrings]
  | cons a rest ih => exact (insertSorted_perm a (sortStrings rest)).trans (ih.cons a)

/-- Sorting a duplicate-free string list keeps it duplicate-free. -/
theorem sortStrings_nodup (l : List String) (h : l.Nodup) : (sortStrings l).Nodup :=
  (sortStrings_perm l).nodup_iff.mpr h

/-- Sorting preserves length. -/
theorem sortStrings_length (l : List String) : (sortStrings l).length = l.length :=
  (sortStrings_perm l).length_eq

/-! ## C3: discovery aggregates successes and never propagates failures -/

/-- Accumulator form of `discover`. -/
theorem discover_foldl (results : List (Except String (List RawTopic)))
    (acc : List RawTopic) :
    results.foldl
        (fun topics r => match r with | .error _ => topics | .ok ts => topics ++ ts)
        acc
      = acc ++ (results.filterMap Except.toOption).flatten := by
  induction results generalizing acc with
  | nil => simp
  | cons r rest ih =>
      cases r with
      | error e => simp [List.foldl_cons, ih, Except.toOption]
      | ok ts => simp [List.foldl_cons, ih, Except.toOption]

/-- C3: for every sequence of connector fetch outcomes, `discover` returns
exactly the concatenation of the successful connectors' topic lists, in
connector-declaration order (order within each list preserved), and is a
total function of the outcomes — an individual connector's failure is
swallowed, never propagated. -/
theorem c3_discover_aggregates_successes
    (results : List (Except String (List RawTopic))) :
    TrendDiscoveryService.discover results
      = (results.filterMap Except.toOption).flatten := by
  simpa using discover_foldl results []

/-! ## C2 and C6: idempotent publish and failure marking -/

/-- Membership in the seen set after adding a batch of ids. -/
theorem mem_addSeen (seen ids : List String) (a : String) :
    a ∈ QueuePublisherService.addSeen seen ids ↔ a ∈ seen ∨ a ∈ ids := by
  induction ids generalizing seen with
  | nil => simp [QueuePublisherService.addSeen]
  | cons i rest ih =>
      show a ∈ QueuePublisherService.addSeen (if i ∈ seen then seen else seen ++ [i]) rest ↔ _
      rw [ih]
      by_cases hi : i ∈ seen
      · simp only [hi, if_true, List.mem_cons]
        constructor
        · rintro (h | h)
          · exact Or.inl h
          · exact Or.inr (Or.inr h)
        · rintro (h | rfl | h)
          · exact Or.inl h
          · exact Or.inl hi
          · exact Or.inr h
      · simp only [hi, if_false, List.mem_append, List.mem_singleton, List.mem_cons]
        tauto

/-- Behavior of `publish` when the fresh batch is non-empty and the
transport call succeeds. -/
theorem publish_ok_spec (seen : List String) (ts : List Topic)
    (h : ts.filter (fun t => decide (t.topic_id ∉ seen)) ≠ []) :
    QueuePublisherService.publish seen ts true
      = { seen := QueuePublisherService.addSeen seen
            ((ts.filter (fun t => decide (t.topic_id ∉ seen))).map Topic.topic_id)
          invocations := [ts.filter (fun t => decide (t.topic_id ∉ seen))]
          outcome := .ok (ts.filter (fun t => decide (t.topic_id ∉ seen))).length } := by
  unfold QueuePublisherService.publish
  rw [if_neg (by simpa [List.isEmpty_iff] using h)]
  simp

/-- Behavior of `publish` when the fresh batch is non-empty and the
transport call raises. -/
theorem publish_fail_spec (seen : List String) (ts : List Topic)
    (h : ts.filter (fun t => decide (t.topic_id ∉ seen)) ≠ []) :
    QueuePublisherService.publish seen ts false
      = { seen := seen
          invocations := [ts.filter (fun t => decide (t.topic_id ∉ seen))]
          outcome := .error "transport" } := by
  unfold QueuePublisherService.publish
  rw [if_neg (by simpa [List.isEmpty_iff] using h)]
  simp

/-- Behavior of `publish` when everything in the input was already seen. -/
theorem publish_empty_spec (seen : List String) (ts : List Topic) (tok : Bool)
    (h : ts.filter (fun t => decide (t.topic_id ∉ seen)) = []) :
    QueuePublisherService.publish seen ts tok
      = { seen := seen, invocations := [], outcome := .ok 0 } := by
  unfold QueuePublisherService.publish
  rw [if_pos (by simpa [List.isEmpty_iff] using h)]

/-- C2 counterexample: when the first transport call raises, the topic is
NOT marked seen and the second publish call re-sends it — the id reaches
the transport in TWO batches, refuting the unconditional exactly-once
claim. -/
theorem c2_counterexample :
    SampleData.t0.topic_id ∈ [SampleData.t0].map Topic.topic_id
    ∧ (QueuePublisherService.publishTwice [SampleData.t0] [SampleData.t0] false true).countP
        (fun batch => decide (SampleData.t0.topic_id ∈ batch.map Topic.topic_id)) = 2 := by
  constructor
  · simp
  · rfl

/-- C2 amended: on one `QueuePublisherService` instance, two publish calls
whose inputs both contain a given topic id hand that id to the transport
in exactly one batch WHEN BOTH TRANSPORT CALLS SUCCEED (the second
occurrence is silently dropped); when the first transport call raises, the
id is not marked seen and both calls carry it to the transport (two
batches); and any publish call whose fresh batch is empty does not invoke
the transport at all. -/
theorem c2_amended :
    (∀ (ts1 ts2 : List Topic) (t : Topic),
        t.topic_id ∈ ts1.map Topic.topic_id →
        t.topic_id ∈ ts2.map Topic.topic_id →
        (QueuePublisherService.publishTwice ts1 ts2 true true).countP
            (fun batch => decide (t.topic_id ∈ batch.map Topic.topic_id)) = 1)
    ∧ (∀ (ts1 ts2 : List Topic) (t : Topic),
        t.topic_id ∈ ts1.map Topic.topic_id →
        t.topic_id ∈ ts2.map Topic.topic_id →
        (QueuePublisherService.publishTwice ts1 ts2 false true).countP
            (fun batch => decide (t.topic_id ∈ batch.map Topic.topic_id)) = 2)
    ∧ ∀ (seen : List String) (ts : List Topic) (tok : Bool),
        ts.filter (fun t => decide (t.topic_id ∉ seen)) = [] →
        (QueuePublisherService.publish seen ts tok).invocations = [] := by
  refine ⟨?_, ?_, ?_⟩
  · intro ts1 ts2 t h1 h2
    have hf1 : ts1.filter (fun t => decide (t.topic_id ∉ ([] : List String))) = ts1 := by
      simp
    have hne1 : ts1 ≠ [] := by
      rintro rfl
      simp at h1
    have hr1 := publish_ok_spec [] ts1 (by rw [hf1]; exact hne1)
    unfold QueuePublisherService.publishTwice
    rw [hr1]
    set seen1 := QueuePublisherService.addSeen []
      ((ts1.filter (fun t => decide (t.topic_id ∉ ([] : List String)))).map Topic.topic_id)
      with hs1
    have hts1 : t.topic_id ∈ seen1 := by
      rw [hs1]
      exact (mem_addSeen _ _ _).mpr (Or.inr (by rw [hf1]; exact h1))
    have hbatch2 : ∀ batch ∈ (QueuePublisherService.publish seen1 ts2 true).invocations,
        t.topic_id ∉ batch.map Topic.topic_id := by
      intro batch hb
      by_cases hf2 : ts2.filter (fun x => decide (x.topic_id ∉ seen1)) = []
      · rw [publish_empty_spec seen1 ts2 true hf2] at hb
        simp at hb
      · rw [publish_ok_spec seen1 ts2 hf2] at hb
        simp only [QueuePublisherService.PublishResult.invocations, List.mem_singleton] at hb
        subst hb
        intro hmem
        rcases List.mem_map.mp hmem with ⟨x, hx, hid⟩
        rcases List.mem_filter.mp hx with ⟨_, hxid⟩
        rw [decide_eq_true_eq] at hxid
        exact hxid (hid ▸ hts1)
    rw [List.countP_append]
    have h2nd : (QueuePublisherService.publish seen1 ts2 true).invocations.countP
        (fun batch => decide (t.topic_id ∈ batch.map Topic.topic_id)) = 0 := by
      rw [List.countP_eq_zero]
      intro b hb
      simpa using hbatch2 b hb
    rw [h2nd]
    rcases List.mem_map.mp h1 with ⟨x, hxmem, hxid⟩
    simp only [List.countP_cons, List.countP_nil, hf1]
    simp only [Nat.zero_add, Nat.add_zero]
    rw [if_pos (by simpa using h1)]
  · intro ts1 ts2 t h1 h2
    have hf1 : ts1.filter (fun t => decide (t.topic_id ∉ ([] : List String))) = ts1 := by
      simp
    have hne1 : ts1.filter (fun t => decide (t.topic_id ∉ ([] : List String))) ≠ [] := by
      rw [hf1]
      rintro rfl
      simp at h1
    have hf2 : ts2.filter (fun t => decide (t.topic_id ∉ ([] : List String))) = ts2 := by
      simp
    have hne2 : ts2.filter (fun t => decide (t.topic_id ∉ ([] : List String))) ≠ [] := by
      rw [hf2]
      rintro rfl
      simp at h2
    unfold QueuePublisherService.publishTwice
    rw [publish_fail_spec [] ts1 hne1]
    simp only [List.countP_append]
    rw [publish_ok_spec [] ts2 hne2]
    simp only [List.countP_cons, List.countP_nil, hf1, hf2]
    simp [h1, h2]
  · intro seen ts tok h
    rw [publish_empty_spec seen ts tok h]

/-- Witness for the amended C2 at a concrete topic published in both
calls, under a succeeding and under a first-failing transport. -/
theorem c2_amended_witness :
    (QueuePublisherService.publishTwice [SampleData.t0] [SampleData.t0] true true).countP
        (fun batch => decide (SampleData.t0.topic_id ∈ batch.map Topic.topic_id)) = 1
    ∧ (QueuePublisherService.publishTwice [SampleData.t0] [SampleData.t0] false true).countP
        (fun batch => decide (SampleData.t0.topic_id ∈ batch.map Topic.topic_id)) = 2
    ∧ (QueuePublisherService.publish ["t-0"] [SampleData.t0] true).invocations = [] :=
  ⟨c2_amended.1 [SampleData.t0] [SampleData.t0] SampleData.t0 (by simp) (by simp),
   c2_amended.2.1 [SampleData.t0] [SampleData.t0] SampleData.t0 (by simp) (by simp),
   c2_amended.2.2 ["t-0"] [SampleData.t0] true (by rfl)⟩

/-- C6 counterexample: with a failing transport, the call is issued (one
invocation) yet the fresh id is NOT added to the seen set, contradicting
the claim that marking happens even when the transport call fails. -/
theorem c6_counterexample :
    (QueuePublisherService.publish [] [SampleData.t0] false).invocations.length = 1
    ∧ SampleData.t0.topic_id ∉ (QueuePublisherService.publish [] [SampleData.t0] false).seen := by
  constructor
  · rfl
  · show SampleData.t0.topic_id ∉ ([] : List String)
    simp

/-- C6 amended: on a publish call with a non-empty fresh batch, the fresh
ids are marked seen only when the transport call returns successfully; a
transport failure leaves the seen set unchanged even though the transport
was invoked with the fresh batch. -/
theorem c6_amended (seen : List String) (ts : List Topic)
    (h : ts.filter (fun t => decide (t.topic_id ∉ seen)) ≠ []) :
    (∀ t ∈ ts, t.topic_id ∉ seen →
        t.topic_id ∈ (QueuePublisherService.publish seen ts true).seen)
    ∧ (QueuePublisherService.publish seen ts false).seen = seen
    ∧ (QueuePublisherService.publish seen ts false).invocations
        = [ts.filter (fun t => decide (t.topic_id ∉ seen))] := by
  refine ⟨?_, ?_, ?_⟩
  · intro t ht hnot
    rw [publish_ok_spec seen ts h]
    show t.topic_id ∈ QueuePublisherService.addSeen seen _
    refine (mem_addSeen _ _ _).mpr (Or.inr ?_)
    exact List.mem_map.mpr ⟨t, List.mem_filter.mpr ⟨ht, by simpa using hnot⟩, rfl⟩
  · rw [publish_fail_spec seen ts h]
  · rw [publish_fail_spec seen ts h]

/-- Witness for the amended C6 at a concrete topic. -/
theorem c6_amended_witness :
    (∀ t ∈ [SampleData.t0], t.topic_id ∉ ([] : List String) →
        t.topic_id ∈ (QueuePublisherService.publish [] [SampleData.t0] true).seen)
    ∧ (QueuePublisherService.publish [] [SampleData.t0] false).seen = []
    ∧ (QueuePublisherService.publish [] [SampleData.t0] false).invocations
        = [[SampleData.t0].filter (fun t => decide (t.topic_id ∉ ([] : List String)))] :=
  c6_amended [] [SampleData.t0] (by simp)

/-! ## C5 and C9: category routing -/

/-- The route fold keeps its accumulator when no later entry scores
strictly higher. -/
theorem route_fold_keep (blob : String) (l : List (String × List String))
    (init : String × ℤ)
    (h : ∀ e ∈ l, (CategoryRouter.category_score blob e.2 : ℤ) ≤ init.2) :
    l.foldl
        (fun (best : String × ℤ) entry =>
          let score : ℤ := (CategoryRouter.category_score blob entry.2 : ℤ)
          if best.2 < score then (entry.1, score) else best)
        init = init := by
  induction l with
  | nil => rfl
  | cons e rest ih =>
      rw [List.foldl_cons]
      have he := h e (List.mem_cons_self e rest)
      rw [if_neg (by exact not_lt.mpr he)]
      exact ih (fun x hx => h x (List.mem_cons_of_mem _ hx))

/-- `route_best` returns the first entry attaining the maximal score,
provided that score beats the initial accumulator. -/
theorem route_fold_first_max (blob : String) :
    ∀ (l : List (String × List String)) (init : String × ℤ) (i : ℕ),
    i < l.length →
    (∀ j, j < l.length →
        (CategoryRouter.category_score blob (l.getD j ("", [])).2 : ℤ)
          ≤ (CategoryRouter.category_score blob (l.getD i ("", [])).2 : ℤ)) →
    (∀ j, j < i →
        (CategoryRouter.category_score blob (l.getD j ("", [])).2 : ℤ)
          < (CategoryRouter.category_score blob (l.getD i ("", [])).2 : ℤ)) →
    init.2 < (CategoryRouter.category_score blob (l.getD i ("", [])).2 : ℤ) →
    l.foldl
        (fun (best : String × ℤ) entry =>
          let score : ℤ := (CategoryRouter.category_score blob entry.2 : ℤ)
          if best.2 < score then (entry.1, score) else best)
        init
      = ((l.getD i ("", [])).1,
         (CategoryRouter.category_score blob (l.getD i ("", [])).2 : ℤ)) := by
  intro l
  induction l with
  | nil => intro init i hi; exact absurd hi (by simp)
  | cons e rest ih =>
      intro init i hi hmax hfirst hinit
      rw [List.foldl_cons]
      cases i with
      | zero =>
          simp only [List.getD_cons_zero] at hinit hmax ⊢
          rw [if_pos hinit]
          apply route_fold_keep
          intro x hx
          rcases List.mem_iff_get.mp hx with ⟨⟨j, hj⟩, hget⟩
          have hle := hmax (j + 1) (by simpa using Nat.succ_lt_succ hj)
          rw [List.getD_cons_succ] at hle
          have hgd : rest.getD j ("", []) = x := by
            rw [List.getD_eq_getElem rest _ hj]
            simpa [List.get_eq_getElem] using hget
          rw [← hgd]
          simpa using hle
      | succ n =>
          have hrest : n < rest.length := by simpa using Nat.lt_of_succ_lt_succ hi
          have hstep : (if init.2 < (CategoryRouter.category_score blob e.2 : ℤ)
              then (e.1, (CategoryRouter.category_score blob e.2 : ℤ)) else init).2
              < (CategoryRouter.category_score blob (rest.getD n ("", [])).2 : ℤ) := by
            have h0 := hfirst 0 (Nat.succ_pos n)
            rw [List.getD_cons_zero, List.getD_cons_succ] at h0
            by_cases hc : init.2 < (CategoryRouter.category_score blob e.2 : ℤ)
            · rw [if_pos hc]
              exact h0
            · rw [if_neg hc]
              have := hinit
              rwa [List.getD_cons_succ] at this
          have := ih (if init.2 < (CategoryRouter.category_score blob e.2 : ℤ)
              then (e.1, (CategoryRouter.category_score blob e.2 : ℤ)) else init) n hrest
            (fun j hj => by
              have := hmax (j + 1) (by simpa using Nat.succ_lt_succ hj)
              rwa [List.getD_cons_succ, List.getD_cons_succ] at this)
            (fun j hj => by
              have := hfirst (j + 1) (Nat.succ_lt_succ hj)
              rwa [List.getD_cons_succ, List.getD_cons_succ] at this)
            hstep
          rw [List.getD_cons_succ]
          exact this

/-- C5 counterexample: with two categories tying at one keyword match, the
router returns the FIRST of the tied categories ("alpha"), not the last
("beta") as the claim states. -/
theorem c5_counterexample :
    CategoryRouter.category_score "x" ["x"] = 1
    ∧ CategoryRouter.category_score "x" ["x"]
        = CategoryRouter.category_score "x" ["x"]
    ∧ CategoryRouter.route (fun _ => 0) [("alpha", ["x"]), ("beta", ["x"])] "x" "general"
        = "alpha"
    ∧ "alpha" ≠ "beta" := by
  refine ⟨by decide, rfl, by decide, by decide⟩

/-- C5 amended: whenever index `i` is the first position whose category
attains the (weakly) maximal keyword-match score and that score is at
least one match, routing returns that category — ties are broken in favor
of the FIRST tied category in configuration iteration order. -/
theorem c5_amended (hf : String → ℕ) (cfg : List (String × List String))
    (text fallback : String) (i : ℕ) (hi : i < cfg.length)
    (hmax : ∀ j, j < cfg.length →
        CategoryRouter.category_score (pyToLower text) (cfg.getD j ("", [])).2
          ≤ CategoryRouter.category_score (pyToLower text) (cfg.getD i ("", [])).2)
    (hfirst : ∀ j, j < i →
        CategoryRouter.category_score (pyToLower text) (cfg.getD j ("", [])).2
          < CategoryRouter.category_score (pyToLower text) (cfg.getD i ("", [])).2)
    (hpos : 1 ≤ CategoryRouter.category_score (pyToLower text) (cfg.getD i ("", [])).2) :
    CategoryRouter.route hf cfg text fallback = (cfg.getD i ("", [])).1 := by
  have hposZ : (1 : ℤ)
      ≤ (CategoryRouter.category_score (pyToLower text) (cfg.getD i ("", [])).2 : ℤ) := by
    exact_mod_cast hpos
  have hfold : CategoryRouter.route_best (pyToLower text) fallback cfg
      = ((cfg.getD i ("", [])).1,
         (CategoryRouter.category_score (pyToLower text) (cfg.getD i ("", [])).2 : ℤ)) := by
    unfold CategoryRouter.route_best
    exact route_fold_first_max (pyToLower text) cfg (fallback, -1) i hi
      (fun j hj => by exact_mod_cast hmax j hj)
      (fun j hj => by exact_mod_cast hfirst j hj)
      (by show (-1 : ℤ) < _; linarith)
  unfold CategoryRouter.route
  rw [hfold]
  rw [if_neg]
  rintro ⟨hle, -⟩
  simp only at hle
  linarith

/-- Witness for the amended C5: two tied categories, first one returned. -/
theorem c5_amended_witness :
    CategoryRouter.route (fun _ => 0) [("alpha", ["x"]), ("beta", ["x"])] "xy" "general"
      = ([("alpha", ["x"]), ("beta", ["x"])].getD 0 ("", [])).1 :=
  c5_amended (fun _ => 0) [("alpha", ["x"]), ("beta", ["x"])] "xy" "general" 0
    (by decide) (by decide) (by decide) (by decide)

/-- C9: when no configured keyword matches the blob and at least one
category is configured, routing lands on the entry of the lexicographically
sorted category names indexed by the hash of the lower-cased blob modulo
the number of categories.  Determinism of repeated calls is immediate
because the embedded `route` is a pure function of its inputs. -/
theorem c9_hash_fallback (hf : String → ℕ) (cfg : List (String × List String))
    (text fallback : String) (hne : cfg ≠ [])
    (hnm : ∀ e ∈ cfg, CategoryRouter.category_score (pyToLower text) e.2 = 0) :
    CategoryRouter.route hf cfg text fallback
      = (sortStrings (cfg.map Prod.fst)).getD (hf (pyToLower text) % cfg.length) fallback := by
  cases cfg with
  | nil => exact absurd rfl hne
  | cons e rest =>
      have he : (CategoryRouter.category_score (pyToLower text) e.2 : ℤ) = 0 := by
        exact_mod_cast hnm e (List.mem_cons_self e rest)
      have hfold : CategoryRouter.route_best (pyToLower text) fallback (e :: rest)
          = (e.1, (CategoryRouter.category_score (pyToLower text) e.2 : ℤ)) := by
        unfold CategoryRouter.route_best
        rw [List.foldl_cons]
        rw [if_pos (by show (-1 : ℤ) < _; rw [he]; norm_num)]
        exact route_fold_keep (pyToLower text) rest
          (e.1, (CategoryRouter.category_score (pyToLower text) e.2 : ℤ))
          (fun x hx => by
            have hx0 : (CategoryRouter.category_score (pyToLower text) x.2 : ℤ) = 0 := by
              exact_mod_cast hnm x (List.mem_cons_of_mem _ hx)
            simp only [hx0, he]
            exact le_refl _)
      unfold CategoryRouter.route
      rw [hfold]
      rw [if_pos ⟨by simp only [he]; norm_num, by simp⟩]
      have hlen : (sortStrings ((e :: rest).map Prod.fst)).length = (e :: rest).length := by
        rw [sortStrings_length, List.length_map]
      have hpos1 : 0 < (sortStrings ((e :: rest).map Prod.fst)).length := by
        rw [hlen]
        simp
      have hidx1 : hf (pyToLower text) % (sortStrings ((e :: rest).map Prod.fst)).length
          < (sortStrings ((e :: rest).map Prod.fst)).length := Nat.mod_lt _ hpos1
      have hidx2 : hf (pyToLower text) % (e :: rest).length
          < (sortStrings ((e :: rest).map Prod.fst)).length := by
        rw [hlen]
        exact Nat.mod_lt _ (by simp)
      rw [List.getD_eq_getElem _ _ hidx1, List.getD_eq_getElem _ _ hidx2]
      congr 1
      rw [hlen]

/-- Witness for C9: three categories, no keyword matches, hash 7 picks
sorted index 1. -/
theorem c9_hash_fallback_witness :
    CategoryRouter.route (fun _ => 7)
        [("alpha", ["q"]), ("beta", ["z"]), ("gamma", ["w"])] "nomatch" "general"
      = (sortStrings ([("alpha", ["q"]), ("beta", ["z"]), ("gamma", ["w"])].map Prod.fst)).getD
          ((fun _ : String => 7) (pyToLower "nomatch") % 3) "general" :=
  c9_hash_fallback (fun _ => 7) [("alpha", ["q"]), ("beta", ["z"]), ("gamma", ["w"])]
    "nomatch" "general" (by decide) (by decide)

/-! ## C4: score bounds -/

/-- Characterization of a successful `_compute_scores` run. -/
theorem compute_scores_ok (baseline : ℚ) (c : TopicCandidate) (s : TopicScores)
    (h : ContentScoreService.compute_scores baseline c = .ok s) :
    ∃ y r cpm,
      pyDictGetNum (ContentScoreService.source_counts_of c) "youtube" 0 = .ok y
      ∧ pyDictGetNum (ContentScoreService.source_counts_of c) "reddit" 0 = .ok r
      ∧ pyDictGetNum (ContentScoreService.raw_meta_of c) "estimated_cpm" (1 / 2) = .ok cpm
      ∧ s = { trend_velocity := min 1 ((y + r) / 10)
              search_volume := min 1 ((c.keywords.length : ℚ) / 12)
              news_frequency := min 1 ((c.source_urls.length : ℚ) / 10)
              youtube_activity := min 1 (y / 5)
              monetization_value := max baseline (min 1 cpm) } := by
  unfold ContentScoreService.compute_scores at h
  rcases except_bind_ok h with ⟨y, hy, h⟩
  rcases except_bind_ok h with ⟨r, hr, h⟩
  rcases except_bind_ok h with ⟨cpm, hcpm, h⟩
  refine ⟨y, r, cpm, hy, hr, hcpm, ?_⟩
  simpa [pure, Except.pure] using h.symm

/-- Rounding to four decimals keeps values inside the unit interval. -/
theorem pyRound4_bounds (x : ℚ) (h0 : 0 ≤ x) (h1 : x ≤ 1) :
    0 ≤ pyRound4 x ∧ pyRound4 x ≤ 1 := by
  unfold pyRound4
  have hy0 : (0 : ℚ) ≤ x * 10000 := by positivity
  have hy1 : x * 10000 ≤ 10000 := by linarith
  have hf0 : (0 : ℤ) ≤ ⌊x * 10000⌋ := Int.le_floor.mpr (by exact_mod_cast hy0)
  have hf1 : ⌊x * 10000⌋ ≤ 10000 := by
    have h := le_trans (Int.floor_le (x * 10000)) hy1
    exact_mod_cast h
  have hfq0 : (0 : ℚ) ≤ (⌊x * 10000⌋ : ℚ) := by exact_mod_cast hf0
  have hfloor_le : (⌊x * 10000⌋ : ℚ) ≤ x * 10000 := Int.floor_le _
  by_cases hlt : x * 10000 - (⌊x * 10000⌋ : ℚ) < 1 / 2
  · rw [if_pos hlt]
    constructor
    · positivity
    · have : (⌊x * 10000⌋ : ℚ) ≤ 10000 := by exact_mod_cast hf1
      linarith
  · rw [if_neg hlt]
    push_neg at hlt
    have hf9999 : (⌊x * 10000⌋ : ℚ) ≤ 9999 := by
      have h9 : (⌊x * 10000⌋ : ℚ) + 1 / 2 ≤ 10000 := by linarith
      have h9' : (⌊x * 10000⌋ : ℚ) ≤ 19999 / 2 := by linarith
      have h9'' : ⌊x * 10000⌋ ≤ (9999 : ℤ) := by
        by_contra hcon
        push_neg at hcon
        have : ((10000 : ℤ) : ℚ) ≤ (⌊x * 10000⌋ : ℚ) := by exact_mod_cast hcon
        norm_num at this
        linarith
      exact_mod_cast h9''
    by_cases hgt : 1 / 2 < x * 10000 - (⌊x * 10000⌋ : ℚ)
    · rw [if_pos hgt]
      constructor
      · positivity
      · linarith
    · rw [if_neg hgt]
      by_cases hpar : ⌊x * 10000⌋ % 2 = 0
      · rw [if_pos hpar]
        constructor
        · positivity
        · have : (⌊x * 10000⌋ : ℚ) ≤ 10000 := by exact_mod_cast hf1
          linarith
      · rw [if_neg hpar]
        constructor
        · positivity
        · linarith

/-- The weighted global score stays inside the unit interval when every
sub-score does. -/
theorem global_score_bounds (s : TopicScores)
    (h1 : 0 ≤ s.trend_velocity) (h2 : s.trend_velocity ≤ 1)
    (h3 : 0 ≤ s.search_volume) (h4 : s.search_volume ≤ 1)
    (h5 : 0 ≤ s.news_frequency) (h6 : s.news_frequency ≤ 1)
    (h7 : 0 ≤ s.youtube_activity) (h8 : s.youtube_activity ≤ 1)
    (h9 : 0 ≤ s.monetization_value) (h10 : s.monetization_value ≤ 1) :
    0 ≤ s.global_score ∧ s.global_score ≤ 1 := by
  unfold TopicScores.global_score
  apply pyRound4_bounds
  · nlinarith
  · nlinarith

/-- C4 counterexample: with the claim's only assumption (baseline ≤ 1), a
negative baseline together with a negative `estimated_cpm` produces
`monetization_value = -1 ∉ [0,1]`; independently, a negative
`source_counts` value with the default baseline produces
`trend_velocity = -4/5 ∉ [0,1]`. -/
theorem c4_counterexample :
    ((-1 : ℚ) ≤ 1
      ∧ ContentScoreService.compute_scores (-1) SampleData.exA
          = .ok ⟨min 1 ((0 + 0) / 10), min 1 (0 / 12), min 1 (0 / 10), min 1 (0 / 5),
                 max (-1) (min 1 (-2))⟩
      ∧ max (-1 : ℚ) (min 1 (-2)) < 0)
    ∧ ((2 / 5 : ℚ) ≤ 1 ∧ (0 : ℚ) ≤ 2 / 5
      ∧ ContentScoreService.compute_scores (2 / 5) SampleData.exB
          = .ok ⟨min 1 ((-8 + 0) / 10), min 1 (0 / 12), min 1 (0 / 10), min 1 (-8 / 5),
                 max (2 / 5) (min 1 (1 / 2))⟩
      ∧ min (1 : ℚ) ((-8 + 0) / 10) < 0) :=
  ⟨⟨by norm_num, by rfl, by norm_num [max_def, min_def]⟩,
   ⟨by norm_num, by norm_num, by rfl, by norm_num [min_def]⟩⟩

/-- C4 amended: for every candidate on which scoring succeeds, provided
`0 ≤ baseline ≤ 1` and the `source_counts` values read for youtube and
reddit are non-negative, all five sub-scores and the rounded global score
lie in `[0, 1]`. -/
theorem c4_amended (baseline : ℚ) (c : TopicCandidate) (s : TopicScores) (y r : ℚ)
    (hb0 : 0 ≤ baseline) (hb1 : baseline ≤ 1)
    (hy : pyDictGetNum (ContentScoreService.source_counts_of c) "youtube" 0 = .ok y)
    (hr : pyDictGetNum (ContentScoreService.source_counts_of c) "reddit" 0 = .ok r)
    (hy0 : 0 ≤ y) (hr0 : 0 ≤ r)
    (hok : ContentScoreService.compute_scores baseline c = .ok s) :
    (0 ≤ s.trend_velocity ∧ s.trend_velocity ≤ 1)
    ∧ (0 ≤ s.search_volume ∧ s.search_volume ≤ 1)
    ∧ (0 ≤ s.news_frequency ∧ s.news_frequency ≤ 1)
    ∧ (0 ≤ s.youtube_activity ∧ s.youtube_activity ≤ 1)
    ∧ (0 ≤ s.monetization_value ∧ s.monetization_value ≤ 1)
    ∧ (0 ≤ s.global_score ∧ s.global_score ≤ 1) := by
  rcases compute_scores_ok baseline c s hok with ⟨y', r', cpm, hy', hr', hcpm, rfl⟩
  have hyy : y = y' := Except.ok.inj (hy.symm.trans hy')
  have hrr : r = r' := Except.ok.inj (hr.symm.trans hr')
  subst hyy hrr
  have htv : 0 ≤ min (1 : ℚ) ((y + r) / 10) ∧ min (1 : ℚ) ((y + r) / 10) ≤ 1 :=
    ⟨le_min (by norm_num) (div_nonneg (by linarith) (by norm_num)), min_le_left _ _⟩
  have hsv : 0 ≤ min (1 : ℚ) ((c.keywords.length : ℚ) / 12)
      ∧ min (1 : ℚ) ((c.keywords.length : ℚ) / 12) ≤ 1 :=
    ⟨le_min (by norm_num) (by positivity), min_le_left _ _⟩
  have hnf : 0 ≤ min (1 : ℚ) ((c.source_urls.length : ℚ) / 10)
      ∧ min (1 : ℚ) ((c.source_urls.length : ℚ) / 10) ≤ 1 :=
    ⟨le_min (by norm_num) (by positivity), min_le_left _ _⟩
  have hya : 0 ≤ min (1 : ℚ) (y / 5) ∧ min (1 : ℚ) (y / 5) ≤ 1 :=
    ⟨le_min (by norm_num) (div_nonneg hy0 (by norm_num)), min_le_left _ _⟩
  have hmv : 0 ≤ max baseline (min 1 cpm) ∧ max baseline (min 1 cpm) ≤ 1 :=
    ⟨le_trans hb0 (le_max_left _ _), max_le hb1 (min_le_left _ _)⟩
  exact ⟨htv, hsv, hnf, hya, hmv,
    global_score_bounds _ htv.1 htv.2 hsv.1 hsv.2 hnf.1 hnf.2 hya.1 hya.2 hmv.1 hmv.2⟩

/-- Witness for the amended C4 at a concrete metadata-free candidate. -/
theorem c4_amended_witness :
    (0 ≤ SampleData.wScores.trend_velocity ∧ SampleData.wScores.trend_velocity ≤ 1)
    ∧ (0 ≤ SampleData.wScores.search_volume ∧ SampleData.wScores.search_volume ≤ 1)
    ∧ (0 ≤ SampleData.wScores.news_frequency ∧ SampleData.wScores.news_frequency ≤ 1)
    ∧ (0 ≤ SampleData.wScores.youtube_activity ∧ SampleData.wScores.youtube_activity ≤ 1)
    ∧ (0 ≤ SampleData.wScores.monetization_value ∧ SampleData.wScores.monetization_value ≤ 1)
    ∧ (0 ≤ SampleData.wScores.global_score ∧ SampleData.wScores.global_score ≤ 1) :=
  c4_amended (2 / 5) SampleData.wCand SampleData.wScores 0 0
    (by norm_num) (by norm_num) (by rfl) (by rfl) (by norm_num) (by norm_num) (by rfl)

/-! ## C8: exact-duplicate suppression in normalization -/

/-- The candidate ids emitted by the normalization loop are the first-seen
deduplication of the content identifiers of the input, relative to the
seen set. -/
theorem build_go_map (digest : String → String) (hf : String → ℕ)
    (cfg : List (String × List String)) (limit : ℕ) :
    ∀ (raws : List RawTopic) (seen : List String),
    (SourceFetchService.build_go digest hf cfg limit raws seen).map TopicCandidate.topic_id
      = dedupFirst (raws.map (SourceFetchService.topic_id_of digest)) seen := by
  intro raws
  induction raws with
  | nil => intro seen; rfl
  | cons r rs ih =>
      intro seen
      simp only [SourceFetchService.build_go, List.map_cons, dedupFirst]
      by_cases h : SourceFetchService.topic_id_of digest r ∈ seen
      · rw [if_pos h, if_pos h]
        exact ih seen
      · rw [if_neg h, if_neg h]
        rw [List.map_cons]
        rw [ih (SourceFetchService.topic_id_of digest r :: seen)]
        rfl

/-- C8: two raw topics with identical title and summary text always get
the same content identifier, and within one normalization pass only the
first occurrence of each identifier yields a candidate — the emitted id
sequence is exactly the first-seen deduplication of the inputs' ids. -/
theorem c8_dedup_determinism (digest : String → String) (hf : String → ℕ)
    (cfg : List (String × List String)) (limit : ℕ) :
    (∀ r1 r2 : RawTopic, r1.title = r2.title → r1.summary = r2.summary →
        SourceFetchService.topic_id_of digest r1 = SourceFetchService.topic_id_of digest r2)
    ∧ ∀ raws : List RawTopic,
        (SourceFetchService.build_candidates digest hf cfg limit raws).map
            TopicCandidate.topic_id
          = pyDedup (raws.map (SourceFetchService.topic_id_of digest)) := by
  constructor
  · intro r1 r2 ht hs
    unfold SourceFetchService.topic_id_of
    rw [ht, hs]
  · intro raws
    unfold SourceFetchService.build_candidates pyDedup
    exact build_go_map digest hf cfg limit raws []

/-- Witness for C8 at two raw topics sharing text but with different URLs,
hints and connector metadata. -/
theorem c8_dedup_determinism_witness :
    SourceFetchService.topic_id_of SampleData.digest0 SampleData.rX
      = SourceFetchService.topic_id_of SampleData.digest0 SampleData.rY
    ∧ (SourceFetchService.build_candidates SampleData.digest0 (fun _ => 0) [] 12
          [SampleData.rX, SampleData.rY]).map TopicCandidate.topic_id
        = pyDedup ([SampleData.rX, SampleData.rY].map
            (SourceFetchService.topic_id_of SampleData.digest0)) :=
  ⟨(c8_dedup_determinism SampleData.digest0 (fun _ => 0) [] 12).1
      SampleData.rX SampleData.rY rfl rfl,
   (c8_dedup_determinism SampleData.digest0 (fun _ => 0) [] 12).2
      [SampleData.rX, SampleData.rY]⟩

/-! ## Clustering machinery: per-key decomposition of the fold -/

namespace TopicClusterService

/-- Updating a key makes it the lookup result. -/
theorem lookup_updateEntry_self (st : List (String × ClusterData)) (k : String)
    (d : ClusterData) : lookupStr (updateEntry st k d) k = some d := by
  induction st with
  | nil => simp [updateEntry, lookupStr]
  | cons p rest ih =>
      obtain ⟨k', d'⟩ := p
      by_cases h : k' = k
      · simp [updateEntry, h, lookupStr]
      · simp [updateEntry, h, lookupStr, ih]

/-- Updating a key leaves other lookups unchanged. -/
theorem lookup_updateEntry_ne (st : List (String × ClusterData)) (k : String)
    (d : ClusterData) (k' : String) (h : k' ≠ k) :
    lookupStr (updateEntry st k d) k' = lookupStr st k' := by
  induction st with
  | nil =>
      simp only [updateEntry, lookupStr]
      rw [if_neg (fun hk => h hk.symm)]
  | cons p rest ih =>
      obtain ⟨k'', d''⟩ := p
      simp only [updateEntry]
      by_cases hk : k'' = k
      · rw [if_pos hk]
        have h1 : ¬ (k = k') := fun he => h he.symm
        have h2 : ¬ (k'' = k') := fun he => h1 (hk ▸ he)
        simp [lookupStr, h1, h2]
      · rw [if_neg hk]
        simp only [lookupStr]
        by_cases hk2 : k'' = k'
        · rw [if_pos hk2, if_pos hk2]
        · rw [if_neg hk2, if_neg hk2]
          exact ih

/-- The key list after an update: unchanged when the key exists, extended
at the end otherwise. -/
theorem keys_updateEntry (st : List (String × ClusterData)) (k : String)
    (d : ClusterData) :
    (updateEntry st k d).map Prod.fst
      = if k ∈ st.map Prod.fst then st.map Prod.fst else st.map Prod.fst ++ [k] := by
  induction st with
  | nil => simp [updateEntry]
  | cons p rest ih =>
      obtain ⟨k', d'⟩ := p
      by_cases h : k' = k
      · subst h
        simp [updateEntry]
      · simp only [updateEntry, if_neg h, List.map_cons, ih]
        have hne : ¬ (k = k') := fun hk => h hk.symm
        by_cases hmem : k ∈ rest.map Prod.fst
        · simp [List.mem_cons, hmem, hne]
        · simp [List.mem_cons, hmem, hne]

/-- Updates preserve duplicate-freeness of the key list. -/
theorem keys_nodup_updateEntry (st : List (String × ClusterData)) (k : String)
    (d : ClusterData) (h : (st.map Prod.fst).Nodup) :
    ((updateEntry st k d).map Prod.fst).Nodup := by
  rw [keys_updateEntry]
  by_cases hmem : k ∈ st.map Prod.fst
  · rwa [if_pos hmem]
  · rw [if_neg hmem]
    simp [List.nodup_append, h, hmem]

/-- One clustering step in terms of its per-entry effect. -/
theorem cluster_step_ok (st : List (String × ClusterData)) (c : TopicCandidate)
    (st1 : List (String × ClusterData)) (h : cluster_step st c = .ok st1) :
    ∃ d, apply_member ((lookupStr st (cluster_key c.keywords)).getD emptyClusterData) c
          = .ok d
      ∧ st1 = updateEntry st (cluster_key c.keywords) d := by
  unfold cluster_step at h
  rcases except_bind_ok h with ⟨d, hd, hpure⟩
  exact ⟨d, hd, (Except.ok.inj hpure).symm⟩

/-- The clustering fold keeps its key list duplicate-free. -/
theorem stepAll_keys_nodup :
    ∀ (l : List TopicCandidate) (st st' : List (String × ClusterData)),
    l.foldlM cluster_step st = .ok st' →
    (st.map Prod.fst).Nodup → (st'.map Prod.fst).Nodup := by
  intro l
  induction l with
  | nil =>
      intro st st' h hn
      rw [List.foldlM_nil] at h
      rwa [← Except.ok.inj h]
  | cons c rest ih =>
      intro st st' h hn
      rw [List.foldlM_cons] at h
      rcases except_bind_ok h with ⟨st1, h1, h2⟩
      rcases cluster_step_ok st c st1 h1 with ⟨d, -, rfl⟩
      exact ih _ _ h2 (keys_nodup_updateEntry st _ d hn)

/-- Per-key view of the clustering fold: the entry of each key evolves by
folding exactly that key's members, in order. -/
theorem stepAll_entry :
    ∀ (l : List TopicCandidate) (st st' : List (String × ClusterData)),
    l.foldlM cluster_step st = .ok st' →
    ∀ k, entry_fold (lookupStr st k)
        (l.filter (fun c => decide (cluster_key c.keywords = k)))
      = .ok (lookupStr st' k) := by
  intro l
  induction l with
  | nil =>
      intro st st' h k
      rw [List.foldlM_nil] at h
      rw [← Except.ok.inj h]
      rfl
  | cons c rest ih =>
      intro st st' h k
      rw [List.foldlM_cons] at h
      rcases except_bind_ok h with ⟨st1, h1, h2⟩
      rcases cluster_step_ok st c st1 h1 with ⟨d, hd, rfl⟩
      by_cases hk : cluster_key c.keywords = k
      · subst hk
        rw [List.filter_cons, if_pos (by simp)]
        have hlook := lookup_updateEntry_self st (cluster_key c.keywords) d
        have := ih _ _ h2 (cluster_key c.keywords)
        rw [hlook] at this
        show (do
          let d1 ← apply_member
            ((lookupStr st (cluster_key c.keywords)).getD emptyClusterData) c
          entry_fold (some d1)
            (rest.filter (fun x => decide (cluster_key x.keywords = cluster_key c.keywords))))
          = _
        rw [hd]
        simpa using this
      · rw [List.filter_cons, if_neg (by simpa using hk)]
        have hlook := lookup_updateEntry_ne st (cluster_key c.keywords) d k
          (fun he => hk he.symm)
        have := ih _ _ h2 k
        rwa [hlook] at this

/-- A successful entry fold starting from an existing entry yields an
entry. -/
theorem entry_fold_some :
    ∀ (ms : List TopicCandidate) (e : ClusterData) (r : Option ClusterData),
    entry_fold (some e) ms = .ok r → ∃ d, r = some d := by
  intro ms
  induction ms with
  | nil =>
      intro e r h
      exact ⟨e, (Except.ok.inj h).symm⟩
  | cons c cs ih =>
      intro e r h
      simp only [entry_fold] at h
      rcases except_bind_ok h with ⟨d1, -, hrest⟩
      exact ih d1 r hrest

/-- On a non-empty member list the missing entry behaves like the
defaultdict initializer. -/
theorem entry_fold_none_eq (ms : List TopicCandidate) (h : ms ≠ []) :
    entry_fold Option.none ms = entry_fold (some emptyClusterData) ms := by
  cases ms with
  | nil => exact absurd rfl h
  | cons c cs => rfl

end TopicClusterService

/-- Case analysis of a successful conditional `Except`, keeping the
condition. -/
theorem ite_ok_cases {α : Type} {c : Prop} [Decidable c] {x y : Except String α}
    {r : α} (h : (if c then x else y) = .ok r) :
    (c ∧ x = .ok r) ∨ (¬ c ∧ y = .ok r) := by
  by_cases hc : c
  · rw [if_pos hc] at h
    exact Or.inl ⟨hc, h⟩
  · rw [if_neg hc] at h
    exact Or.inr ⟨hc, h⟩

namespace TopicClusterService

/-- Counting through a `bump`. -/
theorem lookup_bump (counts : List (String × ℕ)) (k k' : String) :
    (lookupStr (bump counts k) k').getD 0
      = (lookupStr counts k').getD 0 + (if k' = k then 1 else 0) := by
  induction counts with
  | nil =>
      simp only [bump, lookupStr]
      by_cases h : k = k'
      · subst h
        simp
      · rw [if_neg h, if_neg (fun he => h he.symm)]
        simp
  | cons p rest ih =>
      obtain ⟨k'', n⟩ := p
      simp only [bump]
      by_cases h : k'' = k
      · rw [if_pos h]
        simp only [lookupStr]
        by_cases h2 : k'' = k'
        · rw [if_pos h2, if_pos h2]
          rw [if_pos (h ▸ h2.symm)]
          simp
        · rw [if_neg h2, if_neg h2]
          rw [if_neg (fun he => h2 (h.trans he.symm))]
          simp
      · rw [if_neg h]
        simp only [lookupStr]
        by_cases h2 : k'' = k'
        · rw [if_pos h2, if_pos h2]
          rw [if_neg (fun he => h (h2.trans he))]
          simp
        · rw [if_neg h2, if_neg h2]
          exact ih

/-- Fields and counts across the `source_type` stage. -/
theorem apply_source_type_spec (data : ClusterData) (rm : List (String × MetaVal))
    (d' : ClusterData) (h : apply_source_type data rm = .ok d') :
    d'.topic_ids = data.topic_ids ∧ d'.keywords = data.keywords
    ∧ d'.titles = data.titles ∧ d'.source_urls = data.source_urls
    ∧ d'.raw_metadata = data.raw_metadata
    ∧ ∀ st, (lookupStr d'.source_counts st).getD 0
        = (lookupStr data.source_counts st).getD 0
          + (if (match lookupStr rm "source_type" with
                 | some (.str s) => s ≠ "" && s = st
                 | _ => false) = true then 1 else 0) := by
  unfold apply_source_type at h
  cases hst : lookupStr rm "source_type" with
  | none =>
      rw [hst] at h
      rw [← Except.ok.inj h]
      simp
  | some v =>
      rw [hst] at h
      cases v with
      | str s =>
          rcases ite_ok_cases (h : (if pyTruthy (MetaVal.str s) = true
              then Except.ok { data with source_counts := bump data.source_counts s }
              else Except.ok data) = .ok d') with ⟨hc, hok⟩ | ⟨hc, hok⟩
          · rw [← Except.ok.inj hok]
            refine ⟨rfl, rfl, rfl, rfl, rfl, ?_⟩
            intro st
            show (lookupStr (bump data.source_counts s) st).getD 0 = _
            rw [lookup_bump data.source_counts s st]
            have hs : s ≠ "" := by simpa [pyTruthy] using hc
            by_cases hss : s = st
            · subst hss
              simp [hs]
            · simp [hs, hss, Ne.symm hss]
          · rw [← Except.ok.inj hok]
            refine ⟨rfl, rfl, rfl, rfl, rfl, ?_⟩
            intro st
            have hs : s = "" := by
              by_contra hne
              exact hc (by simpa [pyTruthy] using hne)
            subst hs
            simp
      | num q =>
          rcases ite_ok_cases (h : (if pyTruthy (MetaVal.num q) = true
              then Except.error "model boundary: non-string source_type"
              else Except.ok data) = .ok d') with ⟨-, hok⟩ | ⟨-, hok⟩
          · cases hok
          · rw [← Except.ok.inj hok]
            simp
      | vlist vs =>
          rcases ite_ok_cases (h : (if pyTruthy (MetaVal.vlist vs) = true
              then Except.error "model boundary: non-string source_type"
              else Except.ok data) = .ok d') with ⟨-, hok⟩ | ⟨-, hok⟩
          · cases hok
          · rw [← Except.ok.inj hok]
            simp
      | dict es =>
          rcases ite_ok_cases (h : (if pyTruthy (MetaVal.dict es) = true
              then Except.error "model boundary: non-string source_type"
              else Except.ok data) = .ok d') with ⟨-, hok⟩ | ⟨-, hok⟩
          · cases hok
          · rw [← Except.ok.inj hok]
            simp
      | none =>
          rw [← Except.ok.inj h]
          simp

/-- Fields across the `latest_published` stage. -/
theorem apply_published_spec (data : ClusterData) (rm : List (String × MetaVal))
    (d' : ClusterData) (h : apply_published data rm = .ok d') :
    d'.topic_ids = data.topic_ids ∧ d'.keywords = data.keywords
    ∧ d'.titles = data.titles ∧ d'.source_urls = data.source_urls
    ∧ d'.raw_metadata = data.raw_metadata
    ∧ d'.source_counts = data.source_counts := by
  unfold apply_published at h
  cases hp : lookupStr rm "published" with
  | none =>
      rw [hp] at h
      rw [← Except.ok.inj h]
      exact ⟨rfl, rfl, rfl, rfl, rfl, rfl⟩
  | some p =>
      rw [hp] at h
      rcases ite_ok_cases (h : (if pyTruthy p = true
          then (do
            let m ← updateLatest data.latest_published p
            pure { data with latest_published := some m })
          else Except.ok data) = .ok d') with ⟨-, hok⟩ | ⟨-, hok⟩
      · rcases except_bind_ok hok with ⟨m, -, hpure⟩
        rw [← Except.ok.inj hpure]
        exact ⟨rfl, rfl, rfl, rfl, rfl, rfl⟩
      · rw [← Except.ok.inj hok]
        exact ⟨rfl, rfl, rfl, rfl, rfl, rfl⟩

/-- Fields and counts across the whole `isinstance(raw_meta, dict)`
block. -/
theorem apply_raw_meta_spec (data : ClusterData) (c : TopicCandidate)
    (d' : ClusterData) (h : apply_raw_meta data c = .ok d') :
    d'.topic_ids = data.topic_ids ∧ d'.keywords = data.keywords
    ∧ d'.titles = data.titles ∧ d'.source_urls = data.source_urls
    ∧ ∀ st, (lookupStr d'.source_counts st).getD 0
        = (lookupStr data.source_counts st).getD 0
          + (if carries_source st c then 1 else 0) := by
  unfold apply_raw_meta at h
  unfold carries_source
  cases hrm : lookupStr c.metadata "raw_metadata" with
  | none =>
      rw [hrm] at h
      rw [← Except.ok.inj h]
      simp
  | some v =>
      rw [hrm] at h
      cases v with
      | dict rm =>
          rcases except_bind_ok h with ⟨d1, h1, h2⟩
          rcases apply_source_type_spec _ rm d1 h1 with ⟨s1, s2, s3, s4, -, s6⟩
          rcases apply_published_spec d1 rm d' h2 with ⟨p1, p2, p3, p4, -, p6⟩
          refine ⟨p1.trans s1, p2.trans s2, p3.trans s3, p4.trans s4, ?_⟩
          intro st
          rw [p6, s6 st]
      | num q =>
          rw [← Except.ok.inj h]
          simp
      | str s =>
          rw [← Except.ok.inj h]
          simp
      | vlist vs =>
          rw [← Except.ok.inj h]
          simp
      | none =>
          rw [← Except.ok.inj h]
          simp

/-- Fields and counts across one full member application. -/
theorem apply_member_spec (dta : ClusterData) (c : TopicCandidate)
    (d' : ClusterData) (h : apply_member dta c = .ok d') :
    d'.topic_ids = dta.topic_ids ++ [c.topic_id]
    ∧ d'.keywords = dta.keywords ++ c.keywords
    ∧ d'.titles = dta.titles ++ [c.topic_title]
    ∧ d'.source_urls = dta.source_urls ++ c.source_urls
    ∧ ∀ st, (lookupStr d'.source_counts st).getD 0
        = (lookupStr dta.source_counts st).getD 0
          + (if carries_source st c then 1 else 0) := by
  unfold apply_member at h
  rcases except_bind_ok h with ⟨d1, h1, hpure⟩
  rw [← Except.ok.inj hpure]
  rcases apply_raw_meta_spec (apply_base dta c) c d1 h1 with ⟨r1, r2, r3, r4, r6⟩
  refine ⟨?_, ?_, ?_, ?_, ?_⟩
  · show d1.topic_ids ++ [c.topic_id] = _
    rw [r1]
    rfl
  · show d1.keywords = _
    rw [r2]
    rfl
  · show d1.titles = _
    rw [r3]
    rfl
  · show d1.source_urls = _
    rw [r4]
    rfl
  · intro st
    show (lookupStr d1.source_counts st).getD 0 = _
    rw [r6 st]
    rfl

/-- Content of a cluster entry after folding its members. -/
theorem entry_fold_spec :
    ∀ (ms : List TopicCandidate) (e d : ClusterData),
    entry_fold (some e) ms = .ok (some d) →
    d.topic_ids = e.topic_ids ++ ms.map TopicCandidate.topic_id
    ∧ d.keywords = e.keywords ++ (ms.map TopicCandidate.keywords).flatten
    ∧ d.titles = e.titles ++ ms.map TopicCandidate.topic_title
    ∧ ∀ st, (lookupStr d.source_counts st).getD 0
        = (lookupStr e.source_counts st).getD 0
          + ms.countP (carries_source st) := by
  intro ms
  induction ms with
  | nil =>
      intro e d h
      have he : some e = some d := Except.ok.inj h
      rw [← Option.some.inj he]
      simp
  | cons c cs ih =>
      intro e d h
      simp only [entry_fold] at h
      rcases except_bind_ok h with ⟨d1, hd1, hrest⟩
      rcases apply_member_spec e c d1 hd1 with ⟨hids, hkw, hti, -, hcnt⟩
      rcases ih d1 d hrest with ⟨iids, ikw, iti, icnt⟩
      refine ⟨?_, ?_, ?_, ?_⟩
      · rw [iids, hids, List.map_cons]
        simp
      · rw [ikw, hkw, List.map_cons, List.flatten_cons]
        simp
      · rw [iti, hti, List.map_cons]
        simp
      · intro st
        rw [icnt st, hcnt st, List.countP_cons]
        by_cases hc : carries_source st c = true
        · simp only [hc, if_true, if_pos rfl]
          omega
        · simp [hc]

end TopicClusterService

/-- Extraction of the string members of a serialized `topic_ids` list. -/
theorem strList_extract (l : List String) :
    List.filterMap
        ((fun v => match v with | MetaVal.str s => some s | _ => Option.none)
          ∘ MetaVal.str) l = l := by
  induction l with
  | nil => rfl
  | cons a rest ih => simp only [List.filterMap_cons, Function.comp_apply, ih]

namespace TopicClusterService

/-- The serialized `topic_ids` of a merged topic are the accumulated
member ids. -/
theorem topic_ids_of_mk_merged (i : ℕ) (k : String) (d : ClusterData) :
    topic_ids_of (mk_merged i k d) = d.topic_ids := by
  unfold topic_ids_of mk_merged mkMergedMetadata
  simp [lookupStr, strList_extract]

/-- The serialized `source_counts` entry of a merged topic for one source
type. -/
theorem source_count_of_mk_merged (i : ℕ) (k : String) (d : ClusterData)
    (st : String) :
    source_count_of (mk_merged i k d) st
      = (((lookupStr d.source_counts st).getD 0 : ℕ) : ℚ) := by
  unfold source_count_of mk_merged mkMergedMetadata
  simp only [lookupStr]
  cases hl : lookupStr d.source_counts st with
  | none =>
      show (match lookupStr
          (d.source_counts.map (fun p => (p.1, MetaVal.num (p.2 : ℚ)))) st with
        | some (MetaVal.num q) => q
        | _ => 0) = _
      rw [lookupStr_map (fun n : ℕ => MetaVal.num (n : ℚ)) d.source_counts st, hl]
      simp
  | some n =>
      show (match lookupStr
          (d.source_counts.map (fun p => (p.1, MetaVal.num (p.2 : ℚ)))) st with
        | some (MetaVal.num q) => q
        | _ => 0) = _
      rw [lookupStr_map (fun n : ℕ => MetaVal.num (n : ℚ)) d.source_counts st, hl]
      simp

/-- The `raw_metadata` value of a merged topic is always a list. -/
theorem raw_meta_of_mk_merged (i : ℕ) (k : String) (d : ClusterData) :
    ContentScoreService.raw_meta_of (mk_merged i k d)
      = .vlist (d.raw_metadata.map .dict) := by
  unfold ContentScoreService.raw_meta_of mk_merged mkMergedMetadata
  simp [lookupStr]

/-- The `source_counts` value of a merged topic is always a numeric
dict. -/
theorem source_counts_of_mk_merged (i : ℕ) (k : String) (d : ClusterData) :
    ContentScoreService.source_counts_of (mk_merged i k d)
      = .dict (d.source_counts.map (fun p => (p.1, MetaVal.num p.2))) := by
  unfold ContentScoreService.source_counts_of mk_merged mkMergedMetadata
  simp [lookupStr]

end TopicClusterService

/-! ## C7: merged-topic invariants -/

/-- C7: every merged topic has at most twelve duplicate-free keywords, a
sorted duplicate-free URL list, and a `source_counts` metadata map that
records, for each source type, exactly the number of its cluster's
contributing members (within the candidate cap) whose raw metadata carried
that source type. -/
theorem c7_cluster_invariants (cap : ℕ) (cs ms : List TopicCandidate)
    (h : TopicClusterService.cluster cap cs = .ok ms) (m : TopicCandidate)
    (hm : m ∈ ms) :
    m.keywords.length ≤ 12 ∧ m.keywords.Nodup
    ∧ List.Sorted (· ≤ ·) m.source_urls ∧ m.source_urls.Nodup
    ∧ ∃ k, ((cs.take cap).filter
          (fun c => decide (TopicClusterService.cluster_key c.keywords = k))) ≠ []
        ∧ ∀ st, TopicClusterService.source_count_of m st
            = (((cs.take cap).filter
                (fun c => decide (TopicClusterService.cluster_key c.keywords = k))).countP
                (TopicClusterService.carries_source st) : ℚ) := by
  unfold TopicClusterService.cluster at h
  rcases except_bind_ok h with ⟨st', hfold, hpure⟩
  have hms : ms = st'.enum.map
      (fun p => TopicClusterService.mk_merged p.1 p.2.1 p.2.2) :=
    (Except.ok.inj hpure).symm
  subst hms
  rcases List.mem_map.mp hm with ⟨⟨i, k, d⟩, hpe, rfl⟩
  have hkd : (k, d) ∈ st' := by
    rcases List.mem_enum hpe with ⟨hlt, heq⟩
    rw [heq]
    exact List.getElem_mem hlt
  have hnd : (st'.map Prod.fst).Nodup :=
    TopicClusterService.stepAll_keys_nodup _ [] st' hfold (by simp)
  have hlook : lookupStr st' k = some d := lookupStr_of_mem_nodup hnd hkd
  have hentry := TopicClusterService.stepAll_entry _ [] st' hfold k
  rw [hlook] at hentry
  simp only [lookupStr] at hentry
  have hne : (cs.take cap).filter
      (fun c => decide (TopicClusterService.cluster_key c.keywords = k)) ≠ [] := by
    intro hnil
    rw [hnil] at hentry
    cases Except.ok.inj hentry
  rw [TopicClusterService.entry_fold_none_eq _ hne] at hentry
  rcases TopicClusterService.entry_fold_spec _ _ d hentry with ⟨-, -, -, hcnt⟩
  refine ⟨?_, ?_, ?_, ?_, k, hne, ?_⟩
  · show ((pyDedup d.keywords).take 12).length ≤ 12
    rw [List.length_take]
    exact min_le_left _ _
  · exact (List.take_sublist _ _).nodup (pyDedup_nodup d.keywords)
  · show List.Sorted (· ≤ ·) (sortStrings (pyDedup d.source_urls))
    exact sortStrings_sorted _
  · exact sortStrings_nodup _ (pyDedup_nodup _)
  · intro st
    rw [TopicClusterService.source_count_of_mk_merged]
    rw [hcnt st]
    simp [TopicClusterService.emptyClusterData, lookupStr]

/-- Witness for C7 at a singleton clustering run. -/
theorem c7_cluster_invariants_witness :
    SampleData.mW.keywords.length ≤ 12 ∧ SampleData.mW.keywords.Nodup
    ∧ List.Sorted (· ≤ ·) SampleData.mW.source_urls ∧ SampleData.mW.source_urls.Nodup
    ∧ ∃ k, (([SampleData.cW].take 250).filter
          (fun c => decide (TopicClusterService.cluster_key c.keywords = k))) ≠ []
        ∧ ∀ st, TopicClusterService.source_count_of SampleData.mW st
            = ((([SampleData.cW].take 250).filter
                (fun c => decide (TopicClusterService.cluster_key c.keywords = k))).countP
                (TopicClusterService.carries_source st) : ℚ) :=
  c7_cluster_invariants 250 [SampleData.cW] [SampleData.mW] (by rfl) SampleData.mW
    (by simp)

/-! ## C10: empty cluster keys and the candidate cap -/

set_option maxRecDepth 40000 in
/-- C10 counterexample: two empty-keyword candidates that straddle the
250-candidate cap are NOT merged — the one beyond the cap is silently
excluded, so no merged topic carries both ids. -/
theorem c10_counterexample :
    SampleData.eEmpty0.keywords = [] ∧ SampleData.eEmpty1.keywords = []
    ∧ SampleData.eEmpty0 ∈ SampleData.c10_input
    ∧ SampleData.eEmpty1 ∈ SampleData.c10_input
    ∧ (TopicClusterService.cluster 250 SampleData.c10_input).isOk = true
    ∧ (TopicClusterService.clusterIds 250 SampleData.c10_input).countP
        (fun ids => ids.contains "e0" && ids.contains "e1") = 0 := by
  refine ⟨rfl, rfl, List.mem_cons_self _ _, ?_, by rfl, by rfl⟩
  unfold SampleData.c10_input
  exact List.mem_cons_of_mem _ (List.mem_append_right _ (List.mem_singleton.mpr rfl))

/-- C10 amended: for keyword lists shorter than six the cluster key is all
keywords sorted and joined; and any two empty-keyword candidates WITHIN
the max-candidates cap (default 250) land in the same merged topic, even
with unrelated titles and URLs. -/
theorem c10_amended :
    (∀ kws : List String, kws.length < 6 →
        TopicClusterService.cluster_key kws = String.intercalate "-" (sortStrings kws))
    ∧ ∀ (cap : ℕ) (cs ms : List TopicCandidate),
        TopicClusterService.cluster cap cs = .ok ms →
        ∀ c1 c2 : TopicCandidate, c1 ∈ cs.take cap → c2 ∈ cs.take cap →
        c1.keywords = [] → c2.keywords = [] →
        ∃ m ∈ ms, c1.topic_id ∈ TopicClusterService.topic_ids_of m
          ∧ c2.topic_id ∈ TopicClusterService.topic_ids_of m := by
  constructor
  · intro kws h
    unfold TopicClusterService.cluster_key
    rw [List.take_of_length_le (le_of_lt h)]
  · intro cap cs ms h c1 c2 h1 h2 hk1 hk2
    unfold TopicClusterService.cluster at h
    rcases except_bind_ok h with ⟨st', hfold, hpure⟩
    have hms : ms = st'.enum.map
        (fun p => TopicClusterService.mk_merged p.1 p.2.1 p.2.2) :=
      (Except.ok.inj hpure).symm
    have hentry := TopicClusterService.stepAll_entry _ [] st' hfold ""
    simp only [lookupStr] at hentry
    have hc1m : c1 ∈ (cs.take cap).filter
        (fun c => decide (TopicClusterService.cluster_key c.keywords = "")) :=
      List.mem_filter.mpr ⟨h1, by rw [hk1]; rfl⟩
    have hc2m : c2 ∈ (cs.take cap).filter
        (fun c => decide (TopicClusterService.cluster_key c.keywords = "")) :=
      List.mem_filter.mpr ⟨h2, by rw [hk2]; rfl⟩
    have hne : (cs.take cap).filter
        (fun c => decide (TopicClusterService.cluster_key c.keywords = "")) ≠ [] :=
      fun hnil => absurd (hnil ▸ hc1m) (List.not_mem_nil c1)
    rw [TopicClusterService.entry_fold_none_eq _ hne] at hentry
    rcases TopicClusterService.entry_fold_some _ _ _ hentry with ⟨d, hd⟩
    rw [hd] at hentry
    rcases TopicClusterService.entry_fold_spec _ _ d hentry with ⟨hids, -, -, -⟩
    have hkd : ("", d) ∈ st' := lookupStr_mem hd
    rcases List.mem_iff_getElem.mp hkd with ⟨i, hi, hgi⟩
    refine ⟨TopicClusterService.mk_merged i "" d, ?_, ?_, ?_⟩
    · rw [hms]
      refine List.mem_map.mpr ⟨(i, ("", d)), ?_, rfl⟩
      refine List.mem_iff_getElem.mpr ⟨i, ?_, ?_⟩
      · rw [List.enum_length]
        exact hi
      · rw [List.getElem_enum, hgi]
    · rw [TopicClusterService.topic_ids_of_mk_merged, hids]
      simp only [TopicClusterService.emptyClusterData, List.nil_append]
      exact List.mem_map.mpr ⟨c1, hc1m, rfl⟩
    · rw [TopicClusterService.topic_ids_of_mk_merged, hids]
      simp only [TopicClusterService.emptyClusterData, List.nil_append]
      exact List.mem_map.mpr ⟨c2, hc2m, rfl⟩

/-- Witness for the amended C10: two unrelated empty-keyword candidates
within the cap end up in one merged topic. -/
theorem c10_amended_witness :
    TopicClusterService.cluster_key ["a"] = String.intercalate "-" (sortStrings ["a"])
    ∧ ∃ m ∈ [SampleData.mE01],
        SampleData.eEmpty0.topic_id ∈ TopicClusterService.topic_ids_of m
        ∧ SampleData.eEmpty1.topic_id ∈ TopicClusterService.topic_ids_of m :=
  ⟨c10_amended.1 ["a"] (by norm_num),
   c10_amended.2 250 [SampleData.eEmpty0, SampleData.eEmpty1] [SampleData.mE01]
     (by rfl) SampleData.eEmpty0 SampleData.eEmpty1 (by simp) (by simp) rfl rfl⟩

/-! ## C1: scoring of clustered output -/

/-- `dict.get` on a dict of numbers never raises and yields a number. -/
theorem pyDictGetNum_num_map (counts : List (String × ℕ)) (k : String) (dflt : ℚ) :
    ∃ q, pyDictGetNum
        (.dict (counts.map (fun p => (p.1, MetaVal.num p.2)))) k dflt = .ok q := by
  have h := lookupStr_map (fun n : ℕ => MetaVal.num (n : ℚ)) counts k
  cases hc : lookupStr counts k with
  | none =>
      refine ⟨dflt, ?_⟩
      simp only [pyDictGetNum, h, hc, Option.map]
  | some n =>
      refine ⟨(n : ℚ), ?_⟩
      simp only [pyDictGetNum, h, hc, Option.map]

/-- C1 (code bug): on EVERY topic produced by the clustering stage — in
particular every one surviving the quality filter — the scoring stage
raises `AttributeError`, because clustering stores `raw_metadata` as a
list of the member dicts while `_compute_scores` calls `.get` on it as if
it were a dict.  No clustered topic is ever scored. -/
theorem c1_scoring_raises_on_cluster_output (baseline : ℚ) (cap kc su : ℕ)
    (cs ms : List TopicCandidate) (m : TopicCandidate)
    (hc : TopicClusterService.cluster cap cs = .ok ms)
    (hm : m ∈ QualityFilterService.qfilter kc su ms) :
    ContentScoreService.compute_scores baseline m
      = .error "AttributeError: object has no attribute get" := by
  have hm' : m ∈ ms := List.mem_of_mem_filter hm
  unfold TopicClusterService.cluster at hc
  rcases except_bind_ok hc with ⟨st', hfold, hpure⟩
  have hms : ms = st'.enum.map
      (fun p => TopicClusterService.mk_merged p.1 p.2.1 p.2.2) :=
    (Except.ok.inj hpure).symm
  rw [hms] at hm'
  rcases List.mem_map.mp hm' with ⟨p, -, hpm⟩
  subst hpm
  simp only [ContentScoreService.compute_scores,
    TopicClusterService.raw_meta_of_mk_merged,
    TopicClusterService.source_counts_of_mk_merged]
  rcases pyDictGetNum_num_map p.2.2.source_counts "youtube" 0 with ⟨qy, hqy⟩
  rcases pyDictGetNum_num_map p.2.2.source_counts "reddit" 0 with ⟨qr, hqr⟩
  rw [hqy, hqr]
  rfl

/-- Witness: the merged topic of one concrete candidate passes the default
quality thresholds yet scoring raises at the default baseline. -/
theorem c1_scoring_raises_witness :
    TopicClusterService.cluster 250 [SampleData.cW] = .ok [SampleData.mW]
    ∧ SampleData.mW ∈ QualityFilterService.qfilter 3 1 [SampleData.mW]
    ∧ ContentScoreService.compute_scores (2/5) SampleData.mW
        = .error "AttributeError: object has no attribute get" := by
  have hq : QualityFilterService.qfilter 3 1 [SampleData.mW] = [SampleData.mW] := rfl
  have hmem : SampleData.mW ∈ QualityFilterService.qfilter 3 1 [SampleData.mW] := by
    rw [hq]
    exact List.mem_singleton.mpr rfl
  exact ⟨by rfl, hmem,
    c1_scoring_raises_on_cluster_output (2/5) 250 3 1 [SampleData.cW]
      [SampleData.mW] SampleData.mW (by rfl) hmem⟩
